import Mathlib

/-!
Shallow embedding of the table-extraction engine of `policy-irr-analyzer`
(`src/pdf_extractor.py`), together with proofs about the properties claimed
in its specification.

Modeling conventions:
* Python `str` is Lean `String`; the string operations (`strip`, `isdigit`,
  `lower`, the regex classes `\d`, `[^\d.\-]`) are modeled on the underlying
  `List Char`, with ASCII digit / whitespace classes.
* Python `float` is modeled as `ℚ`; the decimal numerals occurring in the
  tables parse exactly, and none of the verified properties depend on
  binary rounding.
* Python `int` values that the source guarantees non-negative (years, ages,
  payment years) are `Nat`.
* A `pdfplumber` table cell is `Option String` (`None` or a string); a raw
  table is a ragged list of rows of cells.
* Exceptions cannot arise in the embedded fragment (every partial access in
  the source is guarded); `try/except` blocks around pure code are modeled
  by the guarded total function.
-/

set_option maxRecDepth 100000

namespace PIA

/-- ASCII whitespace, modeling the characters stripped by Python `str.strip()`. -/
def isWs (c : Char) : Bool :=
  c = ' ' || c = '\t' || c = '\n' || c = '\r' || c = '\x0b' || c = '\x0c'

/-- Python `str.strip()` on the character list. -/
def stripL (l : List Char) : List Char :=
  ((l.dropWhile isWs).reverse.dropWhile isWs).reverse

/-- Python `str.strip()`. -/
def pyStrip (s : String) : String := ⟨stripL s.data⟩

/-- Python `str.isdigit()` (ASCII decimal digits). -/
def pyIsDigit (s : String) : Bool := !s.data.isEmpty && s.data.all (·.isDigit)

/-- Python `int()` on a string of decimal digits. -/
def parseNatDigits (l : List Char) : Nat :=
  l.foldl (fun a c => 10 * a + (c.toNat - 48)) 0

/-- Python `str.split` on the newline character: split at every occurrence,
keeping empty pieces; the result is always non-empty. -/
def splitNLL : List Char → List (List Char)
  | [] => [[]]
  | c :: r =>
    if c = '\n' then [] :: splitNLL r
    else
      match splitNLL r with
      | [] => [[c]]
      | h :: t => (c :: h) :: t

/-- Python `str.replace(pat, "")`: delete every leftmost, non-overlapping
occurrence of `pat` (the source only ever replaces by the empty string).
The recursion is made structural through an explicit fuel argument so that
the kernel can evaluate it; the wrapper below passes `l.length`, which
always suffices because every step consumes at least one character. -/
def removeAllFuel (pat : List Char) (fuel : Nat) (l : List Char) : List Char :=
  match fuel with
  | 0 => l
  | fuel + 1 =>
    if pat ≠ [] ∧ pat.isPrefixOf l then
      removeAllFuel pat fuel (l.drop pat.length)
    else
      match l with
      | [] => []
      | c :: r => c :: removeAllFuel pat fuel r

/-- Python `str.replace(pat, "")` on character lists. -/
def removeAllL (l pat : List Char) : List Char := removeAllFuel pat l.length l

/-- Python `str.replace(pat, "")` at the `String` level. -/
def removeAllS (s pat : String) : String := ⟨removeAllL s.data pat.data⟩

/-- `(l.dropWhile p).length ≤ l.length` (not available in this toolchain). -/
theorem length_dropWhile_le {α : Type} (p : α → Bool) (l : List α) :
    (l.dropWhile p).length ≤ l.length := by
  induction l with
  | nil => simp [List.dropWhile]
  | cons a l ih =>
    by_cases h : p a <;> simp only [List.dropWhile, h] <;> simp <;> omega

/-- Contiguous-occurrence test: does `pat` occur as an infix of `l`?
Models Python's `pat in s` on strings. -/
def isInfixOfL (pat : List Char) : List Char → Bool
  | [] => pat.isEmpty
  | c :: r => pat.isPrefixOf (c :: r) || isInfixOfL pat r

/-- Substring test, modeling Python's `pat in s`. -/
def strContains (s pat : String) : Bool := isInfixOfL pat.data s.data

/-- Value contributed by the fractional digit string of a decimal numeral
(`digits / 10 ^ count`, via the kernel-evaluable `mkRat`). -/
def fracVal (l : List Char) : ℚ := mkRat (parseNatDigits l) (10 ^ l.length)

/-- The unsigned part of Python `float()` on a cleaned string: digits with
at most one decimal point and at least one digit in total. -/
def parseBody (l1 : List Char) : Option ℚ :=
  match l1.dropWhile (·.isDigit) with
  | [] =>
    if (l1.takeWhile (·.isDigit)).isEmpty then none
    else some (parseNatDigits (l1.takeWhile (·.isDigit)) : ℚ)
  | '.' :: r2 =>
    if (r2.dropWhile (·.isDigit)).isEmpty
        && !((l1.takeWhile (·.isDigit)).isEmpty
              && (r2.takeWhile (·.isDigit)).isEmpty) then
      some ((parseNatDigits (l1.takeWhile (·.isDigit)) : ℚ)
        + fracVal (r2.takeWhile (·.isDigit)))
    else none
  | _ => none

/-- Python `float()` restricted to strings over digits, `.` and `-` (the
only characters surviving the source's cleaning regex): an optional leading
minus sign, then the unsigned body; any other shape raises `ValueError`,
modeled as `none`. -/
def parsePyFloatL (l : List Char) : Option ℚ :=
  match l with
  | '-' :: r => (parseBody r).map (fun v => -v)
  | l => parseBody l

/-- `parsePyFloatL` at the `String` level. -/
def parsePyFloat (s : String) : Option ℚ := parsePyFloatL s.data

-- ---------------------------------------------------------------------------
-- CID Decoding  (`decode_cid`)
-- ---------------------------------------------------------------------------

/-- The opening tag of a CID escape, `"(cid:"`. -/
def cidTag : List Char := ['(', 'c', 'i', 'd', ':']

/-- Replacement for one decoded CID number: `chr (cid + 29)` if that lands in
printable ASCII, otherwise nothing. -/
def cidReplacement (n : Nat) : List Char :=
  let a := n + 29
  if 32 ≤ a ∧ a ≤ 126 then [Char.ofNat a] else []

/-- Try to match the regex `\(cid:(\d+)\)` at the start of `l`; on success
return the CID number and the remainder of the input. -/
def matchCid (l : List Char) : Option (Nat × List Char) :=
  if cidTag.isPrefixOf l then
    if ((l.drop 5).takeWhile (·.isDigit)).isEmpty then none
    else
      match (l.drop 5).dropWhile (·.isDigit) with
      | ')' :: r => some (parseNatDigits ((l.drop 5).takeWhile (·.isDigit)), r)
      | _ => none
  else none

theorem matchCid_length_lt {l : List Char} {n : Nat} {r : List Char}
    (h : matchCid l = some (n, r)) : r.length < l.length := by
  unfold matchCid at h
  by_cases hp : cidTag.isPrefixOf l
  · simp only [hp, if_true] at h
    by_cases hds : ((l.drop 5).takeWhile (·.isDigit)).isEmpty
    · simp [hds] at h
    · simp only [hds, Bool.false_eq_true, if_false] at h
      have h5 : 5 ≤ l.length :=
        le_trans (by decide) (List.isPrefixOf_iff_prefix.mp hp).length_le
      have hdw : ((l.drop 5).dropWhile (·.isDigit)).length ≤ (l.drop 5).length :=
        length_dropWhile_le _ _
      rcases hr2 : (l.drop 5).dropWhile (·.isDigit) with _ | ⟨c, rr⟩ <;>
        rw [hr2] at h hdw
      · simp at h
      · split at h
        · next r2 heq =>
            simp only [Option.some.injEq, Prod.mk.injEq] at h
            obtain ⟨-, hr⟩ := h
            subst hr
            have hlen : r2.length + 1 = (c :: rr).length := by rw [heq]; simp
            simp only [List.length_cons, List.length_drop] at hdw hlen
            omega
        · simp at h
  · simp [hp] at h

/-- The replacement loop of `re.sub(r'\(cid:(\d+)\)', _replace, text)`:
scan left to right, replacing each escape and copying other characters. -/
def decodeCidAux : List Char → List Char
  | [] => []
  | c :: rest =>
    match h : matchCid (c :: rest) with
    | some p => cidReplacement p.1 ++ decodeCidAux p.2
    | none => c :: decodeCidAux rest
termination_by l => l.length
decreasing_by
  · exact matchCid_length_lt (by rw [h])
  · simp

/-- `decode_cid`: decode CID-encoded text (`CID + 29 = ASCII`).  Text without
the `(cid:` marker is returned as-is (fast path of the source). -/
def decode_cid (s : String) : String :=
  if s = "" then ""
  else if isInfixOfL cidTag s.data then ⟨decodeCidAux s.data⟩
  else s

-- ---------------------------------------------------------------------------
-- Numeric cleaning  (`clean_numeric`)
-- ---------------------------------------------------------------------------

/-- The blank tokens recognized by `clean_numeric` (dash, em-dash, `N/A`,
the Chinese "not applicable" label, and the empty string). -/
def blankTokens : List String := ["-", "—", "N/A", "不适用", ""]

/-- Characters kept by the regex `re.sub(r'[^\d.\-]', '', ...)`. -/
def keepNumChar (c : Char) : Bool := c.isDigit || c = '.' || c = '-'

/-- The cleaning pipeline of `clean_numeric`: strip, delete `,`, `$`, `HK$`
(in the source's order), then keep only the characters of `[\d.\-]`. -/
def cleanedOf (text : String) : String :=
  ⟨(removeAllS (removeAllS (removeAllS (pyStrip text) ",") "$") "HK$").data.filter
    keepNumChar⟩

/-- `clean_numeric`: parse a numeric string from the PDF, handling commas,
currency symbols, dashes and whitespace; every failure yields `0`. -/
def clean_numeric (text : String) : ℚ :=
  if text = "" then 0
  else if pyStrip text ∈ blankTokens then 0
  else if cleanedOf text = "" ∨ cleanedOf text = "-" then 0
  else
    match parsePyFloat (cleanedOf text) with
    | some q => q
    | none => 0

-- ---------------------------------------------------------------------------
-- Raw tables
-- ---------------------------------------------------------------------------

/-- A `pdfplumber` table cell: `None` or a string. -/
abbrev Cell := Option String

/-- A raw table row (possibly ragged). -/
abbrev Row := List Cell

/-- A raw table: list of rows. -/
abbrev Table := List Row

/-- `decode_cid(str(c)).strip() if c else ''` — the decoded, stripped text of
a cell, with `None` and `''` (the falsy cells) going to `''`. -/
def cellText (c : Cell) : String :=
  match c with
  | none => ""
  | some s => if s = "" then "" else pyStrip (decode_cid s)

/-- `max(len(row) for row in table)`, with the empty table giving 0 (the
source guards every use against empty tables). -/
def maxCols (table : Table) : Nat := (table.map List.length).foldr max 0

-- ---------------------------------------------------------------------------
-- Header detection  (`_detect_header_rows`)
-- ---------------------------------------------------------------------------

/-- Does this row start the data region: its first cell is non-falsy and the
text of its decoded, stripped value preceding any embedded newline is purely
numeric?  The rows skipped by the source's `continue` statements are exactly
the rows where this is false. -/
def isDataRow (row : Row) : Bool :=
  match row with
  | [] => false
  | c :: _ =>
    match c with
    | none => false
    | some s =>
      if s = "" then false
      else
        let fc := pyStrip (decode_cid s)
        if fc = "" then false
        else pyIsDigit ⟨stripL ((splitNLL fc.data).headD [])⟩

/-- Index of the first data row, scanning from the top. -/
def findDataRowIdx : Table → Option Nat
  | [] => none
  | row :: rest =>
    if isDataRow row then some 0
    else (findDataRowIdx rest).map (· + 1)

/-- `_detect_header_rows`: scan from the top for the first data row; the
header count is that row's index floored at 1, or `min(3, len(table) - 1)`
(computed in `Int`, as in Python) when no data row is found. -/
def _detect_header_rows (table : Table) : Int :=
  match findDataRowIdx table with
  | some i => ((max i 1 : Nat) : Int)
  | none => min 3 ((table.length : Int) - 1)

/-- Python list slicing `l[i:]` (a negative `i` counts from the end). -/
def pySliceFrom {α : Type} (l : List α) (i : Int) : List α :=
  if i < 0 then l.drop ((l.length + i).toNat) else l.drop i.toNat

-- ---------------------------------------------------------------------------
-- Row expansion  (`_expand_rows`)
-- ---------------------------------------------------------------------------

/-- Expand one physical row into sub-rows: decode every cell, split it on
embedded newlines, and emit as many sub-rows as the maximum split count;
cells with fewer parts pad with `''`, and every part is stripped. -/
def expandRow (row : Row) : List (List String) :=
  let split_cells := row.map (fun c => splitNLL (cellText c).data)
  let n_sub := (split_cells.map List.length).foldr max 0
  (List.range n_sub).map (fun j =>
    split_cells.map (fun parts =>
      match parts.get? j with
      | some p => (⟨stripL p⟩ : String)
      | none => ""))

/-- `_expand_rows`: drop the header rows (auto-detecting the count when the
argument is negative, the source's `-1` default) and expand every remaining
physical row. -/
def _expand_rows (table : Table) (header_rows : Int) : List (List String) :=
  let h := if header_rows < 0 then _detect_header_rows table else header_rows
  ((pySliceFrom table h).map expandRow).flatten

-- ---------------------------------------------------------------------------
-- Table classification  (`_identify_table_type`)
-- ---------------------------------------------------------------------------

/-- The semantic role of a classified table (`'no_withdrawal'`,
`'death_benefit'`, `'withdrawal'` in the source). -/
inductive TType where
  | no_withdrawal
  | death_benefit
  | withdrawal
deriving DecidableEq, Repr

/-- `_get_table_header_text`: flattened decoded text of the header rows; for
every non-falsy cell append the decoded text and, when it differs, also the
raw text; join everything with single spaces. -/
def _get_table_header_text (header_rows : List Row) : String :=
  String.intercalate " "
    (header_rows.flatMap (fun row =>
      row.flatMap (fun cell =>
        match cell with
        | none => []
        | some s =>
          if s = "" then []
          else
            let d := decode_cid s
            if s ≠ d then [d, s] else [d])))

/-- Surrender-value (no-withdrawal) keyword set. -/
def nwKeywords : List String :=
  ["保证现金价值", "保證現金價值", "退保价值", "退保價值",
   "退保发还", "退保發還", "保证退保", "保證退保",
   "累积保费", "累積保費", "累积已缴保费", "累積已繳保費",
   "guaranteed", "surrender", "cash value",
   "(a)", "(b)", "(c)", "(e)"]

/-- Death-benefit keyword set. -/
def dbKeywords : List String :=
  ["身故赔偿", "身故賠償", "死亡保障",
   "death benefit", "death_benefit",
   "(f)", "(g)", "(h)", "(i)", "(j)"]

/-- Withdrawal keyword set. -/
def wdKeywords : List String :=
  ["提取", "提領", "每年可提取", "每年可提領",
   "提取方案", "提領方案",
   "withdrawal", "withdraw",
   "(1)", "(2)"]

/-- `sum(1 for kw in kws if kw in flat_lower or kw in flat)`. -/
def kwScore (kws : List String) (flatLower flat : String) : Nat :=
  (kws.filter (fun kw => strContains flatLower kw || strContains flat kw)).length

/-- `_identify_table_type`: tiered classification from the flattened header
text and the column count (exact label rules, then keyword scores with
column-count ranges, then single-keyword relaxed rules). -/
def _identify_table_type (header_rows : List Row) (ncols : Nat) : Option TType :=
  let flat := _get_table_header_text header_rows
  let flat_lower := flat.toLower
  if ncols = 8 ∧ strContains flat "(A)" ∧ strContains flat "(E)" then some .no_withdrawal
  else if ncols = 8 ∧ strContains flat "(A)" ∧ strContains flat "(B)" then some .no_withdrawal
  else if ncols = 10 ∧ (strContains flat "(F)" ∨ strContains flat "(F ") then some .death_benefit
  else if ncols = 10 ∧ strContains flat "(1)" ∧ strContains flat "(2)" then some .withdrawal
  else if ncols = 10 ∧ strContains flat "(G)" then some .death_benefit
  else
    let nw_score := kwScore nwKeywords flat_lower flat
    let db_score := kwScore dbKeywords flat_lower flat
    let wd_score := kwScore wdKeywords flat_lower flat
    if 2 ≤ wd_score ∧ 8 ≤ ncols then some .withdrawal
    else if 2 ≤ nw_score ∧ 6 ≤ ncols ∧ ncols ≤ 10 then some .no_withdrawal
    else if 2 ≤ db_score ∧ 8 ≤ ncols then some .death_benefit
    else if 1 ≤ nw_score ∧ 6 ≤ ncols ∧ ncols ≤ 10 ∧ db_score ≤ nw_score then some .no_withdrawal
    else if 1 ≤ db_score ∧ 8 ≤ ncols ∧ wd_score = 0 then some .death_benefit
    else if 1 ≤ wd_score ∧ 8 ≤ ncols then some .withdrawal
    else none

-- ---------------------------------------------------------------------------
-- Column mapping  (`_detect_nw_column_mapping`, `_detect_wd_column_mapping`)
-- ---------------------------------------------------------------------------

/-- The per-column concatenated header text built by the column-mapping
detectors: over the first `header_rows` rows, append
`' ' + decoded.strip() + ' ' + raw.strip()` for every non-falsy cell found
in column `j`. -/
def colHeaderText (table : Table) (header_rows : Int) (j : Nat) : String :=
  ((table.take (min header_rows (table.length : Int)).toNat).map (fun row =>
    match row.get? j with
    | some (some s) =>
      if s = "" then ""
      else " " ++ pyStrip (decode_cid s) ++ " " ++ pyStrip s
    | _ => "")).foldl (· ++ ·) ""

/-- Detected column mapping for a no-withdrawal (surrender value) table:
the Python dict with `Option` fields for absent keys. -/
structure NWMap where
  year : Option Nat := none
  age : Option Nat := none
  cumulative_premium : Option Nat := none
  guaranteed_cv : Option Nat := none
  reversionary_bonus : Option Nat := none
  terminal_dividend : Option Nat := none
  special_div : Option Nat := none
  total_surrender : Option Nat := none
deriving DecidableEq, Repr

/-- Python truthiness of the mapping dict: is it empty? -/
def NWMap.isEmpty (m : NWMap) : Bool :=
  m.year.isNone && m.age.isNone && m.cumulative_premium.isNone &&
  m.guaranteed_cv.isNone && m.reversionary_bonus.isNone &&
  m.terminal_dividend.isNone && m.special_div.isNone && m.total_surrender.isNone

/-- One column of the `_detect_nw_column_mapping` loop: column 0 is `year`,
column 1 is `age`; the rest run the if/elif keyword chain on
`h.lower() + ' ' + h`, assigning a field only when not yet assigned. -/
def nwMapStep (m : NWMap) (idx : Nat) (h : String) : NWMap :=
  let hc := h.toLower ++ " " ++ h
  let hit := fun kws : List String => kws.any (fun kw => strContains hc kw)
  if idx = 0 then { m with year := some idx }
  else if idx = 1 then { m with age := some idx }
  else if hit ["累积保费", "累積保費", "cumulative", "premium", "保费", "保費"] then
    if m.cumulative_premium = none then { m with cumulative_premium := some idx } else m
  else if hit ["(a)", "保证现金", "保證現金", "guaranteed"] then
    if m.guaranteed_cv = none then { m with guaranteed_cv := some idx } else m
  else if hit ["(b)", "复归红利", "復歸紅利", "reversionary"] then
    if m.reversionary_bonus = none then { m with reversionary_bonus := some idx } else m
  else if hit ["(c)", "终期红利", "終期紅利", "terminal"] then
    if m.terminal_dividend = none then { m with terminal_dividend := some idx } else m
  else if hit ["#", "特别", "特別", "special"] then
    if m.special_div = none then { m with special_div := some idx } else m
  else if hit ["(e)", "退保总额", "退保總額", "total", "surrender"] then
    if m.total_surrender = none then { m with total_surrender := some idx } else m
  else m

/-- `_detect_nw_column_mapping`. -/
def _detect_nw_column_mapping (table : Table) (header_rows : Int) : NWMap :=
  let ncols := maxCols table
  (List.range ncols).foldl
    (fun m j => nwMapStep m j (colHeaderText table header_rows j)) {}

/-- Detected column mapping for a withdrawal table. -/
structure WDMap where
  year : Option Nat := none
  age : Option Nat := none
  withdrawal_amount : Option Nat := none
  remaining_guaranteed : Option Nat := none
  remaining_bonus : Option Nat := none
  remaining_terminal : Option Nat := none
  remaining_special : Option Nat := none
  remaining_total : Option Nat := none
deriving DecidableEq, Repr

/-- Python truthiness of the withdrawal mapping dict. -/
def WDMap.isEmpty (m : WDMap) : Bool :=
  m.year.isNone && m.age.isNone && m.withdrawal_amount.isNone &&
  m.remaining_guaranteed.isNone && m.remaining_bonus.isNone &&
  m.remaining_terminal.isNone && m.remaining_special.isNone && m.remaining_total.isNone

/-- One column of the `_detect_wd_column_mapping` loop. -/
def wdMapStep (m : WDMap) (idx : Nat) (h : String) : WDMap :=
  let hc := h.toLower ++ " " ++ h
  let hit := fun kws : List String => kws.any (fun kw => strContains hc kw)
  if idx = 0 then { m with year := some idx }
  else if idx = 1 then { m with age := some idx }
  else if hit ["提取", "提領", "withdrawal", "每年"] then
    if m.withdrawal_amount = none then { m with withdrawal_amount := some idx } else m
  else if hit ["(a)", "保证", "保證", "guaranteed"] then
    if m.remaining_guaranteed = none then { m with remaining_guaranteed := some idx } else m
  else if hit ["(b)", "复归", "復歸", "reversionary"] then
    if m.remaining_bonus = none then { m with remaining_bonus := some idx } else m
  else if hit ["(c)", "终期", "終期", "terminal"] then
    if m.remaining_terminal = none then { m with remaining_terminal := some idx } else m
  else if hit ["#", "特别", "特別", "special"] then
    if m.remaining_special = none then { m with remaining_special := some idx } else m
  else if hit ["总额", "總額", "total"] then
    if m.remaining_total = none then { m with remaining_total := some idx } else m
  else m

/-- `_detect_wd_column_mapping`. -/
def _detect_wd_column_mapping (table : Table) (header_rows : Int) : WDMap :=
  let ncols := maxCols table
  (List.range ncols).foldl
    (fun m j => wdMapStep m j (colHeaderText table header_rows j)) {}

-- ---------------------------------------------------------------------------
-- Policy info and record types
-- ---------------------------------------------------------------------------

/-- The `policy_info` dict with its silent defaults (`_extract_policy_info`).
Warning texts throughout this development are abbreviated renderings of the
source's format strings; no verified property inspects warning contents,
only their presence. -/
structure PolicyInfo where
  product_name : String := ""
  product_name_en : String := ""
  insurer : String := "AIA"
  insured_name : String := ""
  age_at_issue : Nat := 0
  gender : String := "M"
  currency : String := "USD"
  currency_symbol : String := "$"
  annual_premium : ℚ := 0
  payment_years : Nat := 5
  total_premium : ℚ := 0
  coverage_type : String := "终身 Whole Life"
  plan_date : String := ""
deriving DecidableEq, Repr

/-- One element of `yearly_data`. -/
structure YearlyRecord where
  year : Nat
  age : Nat
  cumulative_premium : ℚ
  guaranteed_cash_value : ℚ
  reversionary_bonus : ℚ
  terminal_dividend : ℚ
  total_surrender_value : ℚ
  total_death_benefit : ℚ
deriving DecidableEq, Repr, Inhabited

/-- One element of `withdrawal_data`. -/
structure WithdrawalRecord where
  year : Nat
  withdrawal_amount : ℚ
  remaining_surrender_guaranteed : ℚ
  remaining_surrender_bonus : ℚ
  remaining_surrender_terminal : ℚ
  remaining_surrender_total : ℚ
deriving DecidableEq, Repr, Inhabited

-- ---------------------------------------------------------------------------
-- Yearly data extraction  (`_extract_yearly_data`)
-- ---------------------------------------------------------------------------

/-- Expanded rows of all death-benefit tables (auto-detected header count). -/
def dbRowsOf (db_tables : List Table) : List (List String) :=
  db_tables.flatMap (fun t => _expand_rows t (-1))

/-- One row's contribution to the death-benefit lookup: rows with at least 6
cells and a numeric first cell map their year to the last column's value
(falling back to the second-to-last column when the last is 0). -/
def dbParse (row : List String) : Option (Nat × ℚ) :=
  if row.length < 6 then none
  else
    let ys := pyStrip (row.headD "")
    if pyIsDigit ys then
      let v1 := clean_numeric (row.getLastD "")
      let v := if v1 = 0 ∧ 2 ≤ row.length then clean_numeric (row.getD (row.length - 2) "")
               else v1
      some (parseNatDigits ys.data, v)
    else none

/-- The `db_by_year` dict: built row by row, later rows overwriting earlier
ones for the same year. -/
def dbByYear (rows : List (List String)) : Nat → Option ℚ :=
  rows.foldl
    (fun f r =>
      match dbParse r with
      | some p => fun n => if n = p.1 then some p.2 else f n
      | none => f)
    (fun _ => none)

/-- The column indices used by the yearly-record loop: detected mapping
values with the hardcoded defaults of the conventional 8-column layout
(`total` defaults to `-1`, meaning "last column"). -/
structure NWCols where
  year : Nat
  age : Nat
  prem : Nat
  guar : Nat
  rev : Nat
  term : Nat
  spec : Nat
  total : Int
deriving DecidableEq, Repr

/-- `nw_col_mapping.get(...)` with the source's defaults. -/
def nwCols (m : NWMap) : NWCols :=
  { year := m.year.getD 0, age := m.age.getD 1, prem := m.cumulative_premium.getD 2,
    guar := m.guaranteed_cv.getD 3, rev := m.reversionary_bonus.getD 4,
    term := m.terminal_dividend.getD 5, spec := m.special_div.getD 6,
    total := match m.total_surrender with | some i => (i : Int) | none => -1 }

/-- `clean_numeric(row[col]) if col < len(row) else 0.0`. -/
def colVal (row : List String) (col : Nat) : ℚ :=
  if col < row.length then clean_numeric (row.getD col "") else 0

/-- The year guard shared by the yearly and withdrawal record loops: the
row must have at least 6 cells and a purely numeric (stripped) cell in the
year column; on success the parsed year. -/
def rowYearAt (col : Nat) (row : List String) : Option Nat :=
  if row.length < 6 then none
  else if pyIsDigit (if col < row.length then pyStrip (row.getD col "") else "")
  then some (parseNatDigits
    (if col < row.length then pyStrip (row.getD col "") else "").data)
  else none

/-- The yearly record built from one accepted row (`year` is the value the
guard parsed from the year column). -/
def mkYearly (c : NWCols) (annual_premium : ℚ) (payment_years : Nat)
    (age_at_issue : Nat) (db : Nat → Option ℚ) (row : List String)
    (year : Nat) : YearlyRecord :=
  let age_str := if c.age < row.length then pyStrip (row.getD c.age "") else ""
  let age := if pyIsDigit age_str then parseNatDigits age_str.data
             else age_at_issue + year
  let cp0 := colVal row c.prem
  let guaranteed_cv := colVal row c.guar
  let reversionary := colVal row c.rev
  let terminal0 := colVal row c.term
  let special := colVal row c.spec
  let total_surrender :=
    if 0 ≤ c.total ∧ c.total < (row.length : Int)
    then clean_numeric (row.getD c.total.toNat "")
    else clean_numeric (row.getLastD "")
  let cp := if cp0 = 0 ∧ 0 < annual_premium
            then annual_premium * ((min year payment_years : Nat) : ℚ)
            else cp0
  let db0 := (db year).getD 0
  let death_benefit := if db0 = 0 then max total_surrender cp else db0
  let terminal := if 0 < special then terminal0 + special else terminal0
  { year := year, age := age, cumulative_premium := cp,
    guaranteed_cash_value := guaranteed_cv,
    reversionary_bonus := reversionary, terminal_dividend := terminal,
    total_surrender_value := total_surrender,
    total_death_benefit := death_benefit }

/-- One iteration of the yearly-record loop of `_extract_yearly_data`:
`none` for the rows the loop skips (`continue`). -/
def buildYearlyRecord (c : NWCols) (annual_premium : ℚ) (payment_years : Nat)
    (age_at_issue : Nat) (db : Nat → Option ℚ) (row : List String) :
    Option YearlyRecord :=
  match rowYearAt c.year row with
  | none => none
  | some year =>
    some (mkYearly c annual_premium payment_years age_at_issue db row year)

/-- The surrender-table pass of `_extract_yearly_data`: the column mapping
comes from the first table that yields a non-empty one; the expanded rows of
all tables are concatenated in order. -/
def nwFold (nw_tables : List Table) : NWMap × List (List String) :=
  nw_tables.foldl
    (fun acc t =>
      let m := if acc.1.isEmpty then _detect_nw_column_mapping t (_detect_header_rows t)
               else acc.1
      (m, acc.2 ++ _expand_rows t (-1)))
    ({}, [])

/-- `_extract_yearly_data`: returns the yearly records together with the
warnings the call appends. -/
def _extract_yearly_data (nw_tables db_tables : List Table) (info : PolicyInfo) :
    List YearlyRecord × List String :=
  let p := nwFold nw_tables
  let db := dbByYear (dbRowsOf db_tables)
  let c := nwCols p.1
  let w1 : List String := if p.1.isEmpty then [] else ["No-withdrawal 列映射"]
  let yearly := p.2.filterMap
    (buildYearlyRecord c info.annual_premium info.payment_years info.age_at_issue db)
  let w2 : List String :=
    if yearly.isEmpty then
      ["No yearly data extracted from PDF",
       "  诊断: " ++ toString nw_tables.length ++ " 个 no_withdrawal 表格, 展开后 " ++
         toString p.2.length ++ " 行"] ++
      (if p.2.isEmpty then [] else ["  首行样本"])
    else []
  (yearly, w1 ++ w2)

-- ---------------------------------------------------------------------------
-- Withdrawal data extraction  (`_extract_withdrawal_data`)
-- ---------------------------------------------------------------------------

/-- Column indices for the withdrawal loop, with the hardcoded defaults of
the conventional 10-column layout. -/
structure WDCols where
  year : Nat
  age : Nat
  wd_amt : Nat
  rem_guar : Nat
  rem_bonus : Nat
  rem_term : Nat
  rem_spec : Nat
  rem_total : Int
deriving DecidableEq, Repr

/-- `wd_col_mapping.get(...)` with the source's defaults. -/
def wdCols (m : WDMap) : WDCols :=
  { year := m.year.getD 0, age := m.age.getD 1, wd_amt := m.withdrawal_amount.getD 3,
    rem_guar := m.remaining_guaranteed.getD 5, rem_bonus := m.remaining_bonus.getD 6,
    rem_term := m.remaining_terminal.getD 7, rem_spec := m.remaining_special.getD 8,
    rem_total := match m.remaining_total with | some i => (i : Int) | none => -1 }

/-- The withdrawal record built from one accepted row. -/
def mkWithdrawal (c : WDCols) (row : List String) (year : Nat) :
    WithdrawalRecord :=
  let wa := colVal row c.wd_amt
  let rg := colVal row c.rem_guar
  let rb := colVal row c.rem_bonus
  let rt0 := colVal row c.rem_term
  let rs := colVal row c.rem_spec
  let rtot :=
    if 0 ≤ c.rem_total ∧ c.rem_total < (row.length : Int)
    then clean_numeric (row.getD c.rem_total.toNat "")
    else clean_numeric (row.getLastD "")
  let rt := if 0 < rs then rt0 + rs else rt0
  { year := year, withdrawal_amount := wa,
    remaining_surrender_guaranteed := rg,
    remaining_surrender_bonus := rb,
    remaining_surrender_terminal := rt,
    remaining_surrender_total := rtot }

/-- One iteration of the withdrawal-record loop. -/
def buildWDRecord (c : WDCols) (row : List String) : Option WithdrawalRecord :=
  match rowYearAt c.year row with
  | none => none
  | some year => some (mkWithdrawal c row year)

/-- The table pass of `_extract_withdrawal_data` (first non-empty mapping
wins; rows concatenated). -/
def wdFold (wd_tables : List Table) : WDMap × List (List String) :=
  wd_tables.foldl
    (fun acc t =>
      let m := if acc.1.isEmpty then _detect_wd_column_mapping t (_detect_header_rows t)
               else acc.1
      (m, acc.2 ++ _expand_rows t (-1)))
    ({}, [])

/-- `_extract_withdrawal_data`: returns the withdrawal records together with
the warnings the call appends. -/
def _extract_withdrawal_data (wd_tables : List Table) :
    List WithdrawalRecord × List String :=
  if wd_tables.isEmpty then ([], [])
  else
    let p := wdFold wd_tables
    let c := wdCols p.1
    let w1 : List String := if p.1.isEmpty then [] else ["Withdrawal 列映射"]
    (p.2.filterMap (buildWDRecord c), w1)

-- ---------------------------------------------------------------------------
-- Policy info extraction  (`_extract_policy_info`)
-- ---------------------------------------------------------------------------

/-- `re.findall(r'([\d,]+(?:\.\d+)?)', s)`: scan left to right; each match is
a maximal run of digits and commas, greedily followed by a decimal point and
at least one digit when present. -/
theorem length_dropWhile_cons_le {α : Type} (p : α → Bool) (c : α) (l : List α)
    (h : p c = true) : ((c :: l).dropWhile p).length ≤ l.length := by
  simp only [List.dropWhile_cons, h, if_true]
  exact length_dropWhile_le p l

def findAmountsL : List Char → List String
  | [] => []
  | c :: rest =>
    if hcd : (c.isDigit || c = ',') = true then
      let run := (c :: rest).takeWhile (fun x => x.isDigit || x = ',')
      match hr : (c :: rest).dropWhile (fun x => x.isDigit || x = ',') with
      | '.' :: r2 =>
        if (r2.takeWhile (·.isDigit)).isEmpty then
          (⟨run⟩ : String) :: findAmountsL ('.' :: r2)
        else
          (⟨run ++ '.' :: r2.takeWhile (·.isDigit)⟩ : String) ::
            findAmountsL (r2.dropWhile (·.isDigit))
      | r1 => (⟨run⟩ : String) :: findAmountsL r1
    else findAmountsL rest
termination_by l => l.length
decreasing_by
  · have hd := length_dropWhile_cons_le (fun x => x.isDigit || decide (x = ',')) c r hcd
    rw [hr] at hd
    simp only [List.length_cons] at hd ⊢
    omega
  · have hd := length_dropWhile_cons_le (fun x => x.isDigit || decide (x = ',')) c r hcd
    rw [hr] at hd
    have h2 := length_dropWhile_le (·.isDigit) r2
    simp only [List.length_cons] at hd ⊢
    omega
  · have hd := length_dropWhile_cons_le (fun x => x.isDigit || decide (x = ',')) c r hcd
    rw [hr] at hd
    simp only [List.length_cons] at hd ⊢
    omega
  · simp

/-- Python `re.match(r'^\d{1,2}$', s)`: one or two digits exactly. -/
def isOneOrTwoDigits (s : String) : Bool :=
  pyIsDigit s && s.data.length ≤ 2

/-- The decoded cells of the first info table's first row. -/
def firstRowCells (t : Table) : List String := (t.headD []).map cellText

/-- Insured name: the first non-empty, non-numeric, non-placeholder cell. -/
def piName (t : Table) (info : PolicyInfo) : PolicyInfo :=
  match (firstRowCells t).find? (fun cell =>
      cell ≠ "" && !(pyIsDigit (removeAllS cell " ")) && cell ≠ "-") with
  | some cell => { info with insured_name := cell }
  | none => info

/-- Age at issue: the first purely numeric cell with value at most 120. -/
def piAge (t : Table) (info : PolicyInfo) : PolicyInfo :=
  match (firstRowCells t).find? (fun cell =>
      pyIsDigit (pyStrip cell) && parseNatDigits (pyStrip cell).data ≤ 120) with
  | some cell => { info with age_at_issue := parseNatDigits (pyStrip cell).data }
  | none => info

/-- Stage of `_extract_policy_info`: insured name and age at issue from the
first info table's first row. -/
def piNameAge (policy_tables : List Table) (info : PolicyInfo) : PolicyInfo :=
  match policy_tables with
  | [] => info
  | t :: _ => piAge t (piName t info)

/-- Premium-amount scan of one cell: the first plausible
1,000-1,000,000 value found anywhere wins. -/
def piScanAmounts (inf : PolicyInfo) (cell : String) : PolicyInfo :=
  (findAmountsL cell.data).foldl
    (fun i amt =>
      if 1000 ≤ clean_numeric amt ∧ clean_numeric amt ≤ 1000000
          ∧ i.annual_premium = 0
      then { i with annual_premium := clean_numeric amt } else i)
    inf

/-- Payment-years scan of one cell: any standalone 1-2 digit token in
2-30 overwrites. -/
def piScanYears (inf : PolicyInfo) (cell : String) : PolicyInfo :=
  if isOneOrTwoDigits (pyStrip cell) then
    if 2 ≤ parseNatDigits (pyStrip cell).data
        ∧ parseNatDigits (pyStrip cell).data ≤ 30
    then { inf with payment_years := parseNatDigits (pyStrip cell).data }
    else inf
  else inf

/-- Stage of `_extract_policy_info`: scan one decoded cell for premium
amounts and payment years. -/
def piScanCell (inf : PolicyInfo) (cell : String) : PolicyInfo :=
  piScanYears (piScanAmounts inf cell) cell

/-- Product-identity recognition in one text source. -/
def piProduct (inf : PolicyInfo) (ts : String) : PolicyInfo :=
  if strContains ts "环宇盈活" ∨ strContains ts "環宇盈活" then
    { inf with product_name := "环宇盈活储蓄保险计划",
               product_name_en := "AIA Vision Life Savings Plan" }
  else if strContains ts "活享储蓄" ∨ strContains ts "活享儲蓄" then
    { inf with product_name := "活享储蓄保险计划",
               product_name_en := "AIA Flexi Savings Plan" }
  else if strContains ts "爱伴航" ∨ strContains ts "愛伴航" then
    { inf with product_name := "爱伴航保险计划",
               product_name_en := "AIA Love Navigator Plan" }
  else inf

/-- Currency recognition in one text source. -/
def piCurrency (inf : PolicyInfo) (ts : String) : PolicyInfo :=
  if strContains ts "USD" ∨ strContains ts "美元" then
    { inf with currency := "USD", currency_symbol := "$" }
  else if strContains ts "HKD" ∨ strContains ts "港元" ∨ strContains ts "港幣" then
    { inf with currency := "HKD", currency_symbol := "HK$" }
  else if strContains ts "RMB" ∨ strContains ts "CNY" ∨ strContains ts "人民币" then
    { inf with currency := "RMB", currency_symbol := "¥" }
  else inf

/-- Stage of `_extract_policy_info`: recognize product identity and currency
via literal phrase matching in one text source. -/
def piApplySource (inf : PolicyInfo) (ts : String) : PolicyInfo :=
  piCurrency (piProduct inf ts) ts

/-- Stage of `_extract_policy_info`: derived total premium. -/
def piTotal (info : PolicyInfo) : PolicyInfo :=
  if 0 < info.annual_premium ∧ 0 < info.payment_years then
    { info with total_premium := info.annual_premium * (info.payment_years : ℚ) }
  else info

/-- Stage of `_extract_policy_info`: append the payment duration to the
product name when both are present. -/
def piSuffix (info : PolicyInfo) : PolicyInfo :=
  if info.payment_years ≠ 0 ∧ info.product_name ≠ "" then
    { info with
      product_name := info.product_name ++ "（" ++ toString info.payment_years ++ "年缴费）",
      product_name_en := info.product_name_en ++ " (" ++ toString info.payment_years ++
        "-Year Payment)" }
  else info

/-- `_extract_policy_info`, as a function of the page-1 policy tables, the
page-1 `pdfplumber` text, and the page-1 `fitz` text (the source obtains the
latter through an optional import that falls back to `''`).  The source
indexes `policy_tables[0][0]` only for tables that went through the
classification loop (hence non-empty); the empty first table is modeled by
an empty first row. -/
def _extract_policy_info (policy_tables : List Table) (page1_text : String)
    (fitz_text : String) : PolicyInfo :=
  let page1_decoded := decode_cid page1_text
  let all_decoded_cells :=
    policy_tables.flatMap (fun t => t.flatMap (fun row => row.map cellText))
  let info := piNameAge policy_tables {}
  let info := all_decoded_cells.foldl piScanCell info
  let info := piApplySource (piApplySource info fitz_text) page1_decoded
  piSuffix (piTotal info)

-- ---------------------------------------------------------------------------
-- Heuristic fallback classification  (`_heuristic_classify`)
-- ---------------------------------------------------------------------------

/-- `_heuristic_classify`: classify an unrecognized table from the shape and
numeric content of its expanded rows.  The `try/except` wrapper returns
`None` on the empty table (the only input on which the body could raise);
the `years` emptiness check of the source never fires, because every
retained data row has a purely numeric first cell. -/
def _heuristic_classify (table : Table) : Option TType :=
  if table.isEmpty then none
  else
    let rows := _expand_rows table (-1)
    if rows.isEmpty then none
    else
      let data_rows := rows.filter (fun r => !r.isEmpty && pyIsDigit (pyStrip (r.headD "")))
      match data_rows with
      | [] => none
      | d0 :: _ =>
        let effective_cols := d0.length
        if effective_cols ≤ 9 then some .no_withdrawal
        else
          let slice := (data_rows.drop 5).take 5
          if slice.any (fun r => 3 < r.length && decide (0 < clean_numeric (r.getD 3 ""))) then
            some .withdrawal
          else some .death_benefit

-- ---------------------------------------------------------------------------
-- Table classification loop and fallback  (`_do_extract`, part 1)
-- ---------------------------------------------------------------------------

/-- One extracted page: its `extract_text()` result and its
`extract_tables()` result. -/
structure Page where
  text : String
  tables : List Table

/-- The table collections and diagnostics accumulated by the classification
loop of `_do_extract`. -/
structure ClassifyState where
  nw : List Table := []
  db : List Table := []
  wd : List Table := []
  policy : List Table := []
  unclassified : List Table := []
  warnings : List String := []

/-- Python `s[:30]`. -/
def take30 (s : String) : String := ⟨s.data.take 30⟩

/-- The unclassified-table diagnostic preview: decoded non-empty texts of
the first 2 rows x 4 columns, first 6 entries, joined by `' | '`. -/
def headerPreview (table : Table) : String :=
  let cells := (table.take 2).flatMap (fun row =>
    (row.take 4).filterMap (fun cell =>
      match cell with
      | none => none
      | some s =>
        if s = "" then none
        else
          let d := take30 (pyStrip (decode_cid s))
          if d = "" then none else some d))
  String.intercalate " | " (cells.take 6)

/-- One table of the classification loop. -/
def classifyStep (page_idx : Nat) (st : ClassifyState) (table : Table) :
    ClassifyState :=
  if table.length < 2 then st
  else
    let ncols := maxCols table
    let nrows := table.length
    if page_idx = 0 ∧ nrows ≤ 3 then { st with policy := st.policy ++ [table] }
    else
      let header_count := _detect_header_rows table
      let header_rows := table.take (min header_count (nrows : Int)).toNat
      match _identify_table_type header_rows ncols with
      | some .no_withdrawal => { st with nw := st.nw ++ [table] }
      | some .death_benefit => { st with db := st.db ++ [table] }
      | some .withdrawal => { st with wd := st.wd ++ [table] }
      | none =>
        let w := "Page " ++ toString (page_idx + 1) ++ ": 未识别表格 (" ++
          toString nrows ++ "行x" ++ toString ncols ++ "列), 表头: " ++
          headerPreview table
        let st := { st with warnings := st.warnings ++ [w] }
        if 3 < nrows then { st with unclassified := st.unclassified ++ [table] }
        else st

/-- The classification loop over all pages. -/
def classifyPages (pages : List Page) : ClassifyState :=
  (pages.enum).foldl
    (fun st pi => pi.2.tables.foldl (classifyStep pi.1) st)
    {}

/-- Sort key `len(t) * max(len(r) for r in t)` of the fallback pass. -/
def tableSize (t : Table) : Nat := t.length * maxCols t

/-- Stable insertion step for the descending sort by `tableSize`. -/
def insertBySizeDesc (x : Table) : List Table → List Table
  | [] => [x]
  | y :: r =>
    if tableSize y ≤ tableSize x then x :: y :: r else y :: insertBySizeDesc x r

/-- Stable descending sort by `tableSize` (agrees with Python's stable
`list.sort(key=..., reverse=True)`). -/
def sortBySizeDesc : List Table → List Table
  | [] => []
  | x :: r => insertBySizeDesc x (sortBySizeDesc r)

/-- The mutable triple of the heuristic fallback loop, plus its warnings. -/
structure FallbackState where
  nw : List Table
  db : List Table
  wd : List Table
  warnings : List String

/-- One table of the heuristic fallback loop. -/
def heuristicStep (st : FallbackState) (t : Table) : FallbackState :=
  match _heuristic_classify t with
  | some .no_withdrawal =>
    if st.nw.isEmpty then
      { st with
        nw := st.nw ++ [t]
        warnings := st.warnings ++
          ["  → 启发式: 表格(" ++ toString t.length ++ "行x" ++
            toString (maxCols t) ++ "列) → no_withdrawal"] }
    else st
  | some .death_benefit => if st.db.isEmpty then { st with db := st.db ++ [t] } else st
  | some .withdrawal => if st.wd.isEmpty then { st with wd := st.wd ++ [t] } else st
  | none => st

/-- The fallback block of `_do_extract`: heuristic classification of the
unclassified tables (largest first) when no surrender-value table was found,
with the largest table forced into that role as a last resort. -/
def applyFallback (st : ClassifyState) : ClassifyState :=
  if st.nw.isEmpty ∧ ¬ st.unclassified.isEmpty then
    let st1 := { st with warnings := st.warnings ++
      ["表格类型自动推断：严格匹配失败，使用启发式匹配"] }
    let sorted := sortBySizeDesc st1.unclassified
    let fs := sorted.foldl heuristicStep ⟨st1.nw, st1.db, st1.wd, []⟩
    let st2 := { st1 with
      nw := fs.nw
      db := fs.db
      wd := fs.wd
      unclassified := sorted
      warnings := st1.warnings ++ fs.warnings }
    if st2.nw.isEmpty then
      match sorted with
      | [] => st2
      | largest :: _ =>
        { st2 with
          nw := [largest]
          warnings := st2.warnings ++
            ["  → 最后手段: 最大表格(" ++ toString largest.length ++ "行x" ++
              toString (maxCols largest) ++ "列) → no_withdrawal"] }
    else st2
  else st

/-- The per-run classification summary warning (always appended). -/
def classifySummary (st : ClassifyState) : String :=
  "表格分类结果: no_withdrawal=" ++ toString st.nw.length ++
    ", death_benefit=" ++ toString st.db.length ++
    ", withdrawal=" ++ toString st.wd.length

-- ---------------------------------------------------------------------------
-- Premium / age auto-detection  (`_do_extract`, part 2)
-- ---------------------------------------------------------------------------

/-- The `for i in range(1, len(yearly_data))` search: first index at which
the cumulative premium equals the previous record's. -/
def findStopIdx (yearly : List YearlyRecord) : Option Nat :=
  (List.range' 1 (yearly.length - 1)).find? (fun i =>
    (yearly.getD i default).cumulative_premium ==
      (yearly.getD (i - 1) default).cumulative_premium)

/-- The trailing `total_premium = annual_premium * payment_years` update. -/
def withTotalPremium (info : PolicyInfo) : PolicyInfo :=
  { info with total_premium := info.annual_premium * (info.payment_years : ℚ) }

/-- `_do_extract` step 4: when the yearly series is non-empty and its first
cumulative premium is positive, overwrite the annual premium with it and the
payment duration with the first year at which the cumulative premium stops
increasing; recompute the total premium. -/
def autoDetectPremium (yearly : List YearlyRecord) (info : PolicyInfo) :
    PolicyInfo × List String :=
  match yearly with
  | [] => (info, [])
  | first :: _ =>
    if 0 < first.cumulative_premium then
      (withTotalPremium
        (match findStopIdx yearly with
         | some i =>
           { info with
             annual_premium := first.cumulative_premium
             payment_years := i }
         | none => { info with annual_premium := first.cumulative_premium }),
       ["Auto-detected premium"])
    else (info, [])

/-- `_do_extract` age back-fill: when the issue age is still 0 and the first
record's attained age is positive, set it to that age minus one. -/
def autoDetectAge (yearly : List YearlyRecord) (info : PolicyInfo) : PolicyInfo :=
  match yearly with
  | [] => info
  | first :: _ =>
    if info.age_at_issue = 0 ∧ 0 < first.age then
      { info with age_at_issue := first.age - 1 }
    else info

-- ---------------------------------------------------------------------------
-- `_do_extract`
-- ---------------------------------------------------------------------------

/-- The result of an extraction run.  The constant `brand` and
`display_settings` blocks of the result dict are rendering defaults owned by
the report renderers and are not modeled; `withdrawal_data` appears in the
dict only when non-empty and is modeled as the plain list. -/
structure ExtractResult where
  policy_info : PolicyInfo
  yearly_data : List YearlyRecord
  withdrawal_data : List WithdrawalRecord
  warnings : List String

/-- `_do_extract`, as a function of the per-page extracted text and tables
and of the alternate (`fitz`) text of page 1.  Reading `pages[0]` presumes a
document with at least one page, as in the source. -/
def _do_extract (pages : List Page) (fitz_text : String) : ExtractResult :=
  let st0 := applyFallback (classifyPages pages)
  let st := { st0 with warnings := st0.warnings ++ [classifySummary st0] }
  let page1_text := (pages.headD ⟨"", []⟩).text
  let info := _extract_policy_info st.policy page1_text fitz_text
  let yp := _extract_yearly_data st.nw st.db info
  let pp := autoDetectPremium yp.1 info
  let info2 := autoDetectAge yp.1 pp.1
  let wp := _extract_withdrawal_data st.wd
  { policy_info := info2,
    yearly_data := yp.1,
    withdrawal_data := wp.1,
    warnings := st.warnings ++ yp.2 ++ pp.2 ++ wp.2 }

-- ===========================================================================
-- Theorems
-- ===========================================================================

-- ---------------------------------------------------------------------------
-- Shared list/string lemmas
-- ---------------------------------------------------------------------------

theorem dropWhile_eq_self {α : Type} {p : α → Bool} {l : List α}
    (h : ∀ c ∈ l, p c = false) : l.dropWhile p = l := by
  cases l with
  | nil => rfl
  | cons a r => simp [List.dropWhile_cons, h a (by simp)]

theorem mem_dropWhile {α : Type} {p : α → Bool} {l : List α} {c : α}
    (h : c ∈ l.dropWhile p) : c ∈ l := by
  induction l with
  | nil => simpa using h
  | cons a r ih =>
    rw [List.dropWhile_cons] at h
    split at h
    · exact List.mem_cons_of_mem a (ih h)
    · exact h

theorem stripL_eq_self {l : List Char} (h : ∀ c ∈ l, isWs c = false) :
    stripL l = l := by
  unfold stripL
  rw [dropWhile_eq_self h]
  rw [dropWhile_eq_self (fun c hc => h c (List.mem_reverse.mp hc))]
  exact List.reverse_reverse l

theorem mem_stripL {l : List Char} {c : Char} (h : c ∈ stripL l) : c ∈ l := by
  unfold stripL at h
  rw [List.mem_reverse] at h
  have h2 := mem_dropWhile h
  rw [List.mem_reverse] at h2
  exact mem_dropWhile h2

theorem removeAllFuel_succ (pat : List Char) (n : Nat) (l : List Char) :
    removeAllFuel pat (n + 1) l =
      if pat ≠ [] ∧ pat.isPrefixOf l then removeAllFuel pat n (l.drop pat.length)
      else
        match l with
        | [] => []
        | c :: r => c :: removeAllFuel pat n r := rfl

theorem mem_removeAllFuel {pat : List Char} {fuel : Nat} :
    ∀ {l : List Char} {c : Char}, c ∈ removeAllFuel pat fuel l → c ∈ l := by
  induction fuel with
  | zero => intro l c h; exact h
  | succ n ih =>
    intro l c h
    rw [removeAllFuel_succ] at h
    split at h
    · exact (List.drop_subset _ _) (ih h)
    · split at h
      · simp at h
      · next c2 r2 heq =>
          cases h with
          | head => exact List.mem_cons_self _ _
          | tail _ h2 => exact List.mem_cons_of_mem _ (ih h2)

theorem removeAllFuel_eq_self {pat : List Char} {p0 : Char}
    (hp : pat.head? = some p0) {fuel : Nat} :
    ∀ {l : List Char}, p0 ∉ l → removeAllFuel pat fuel l = l := by
  obtain ⟨pt, rfl⟩ : ∃ pt, pat = p0 :: pt := by
    cases pat with
    | nil => simp at hp
    | cons a t =>
      simp only [List.head?_cons, Option.some.injEq] at hp
      exact ⟨t, by rw [hp]⟩
  induction fuel with
  | zero => intro l h; rfl
  | succ n ih =>
    intro l h
    rw [removeAllFuel_succ]
    have hpre : (p0 :: pt).isPrefixOf l = false := by
      cases l with
      | nil => rfl
      | cons c r =>
        have hne : (p0 == c) = false := by
          simp only [beq_eq_false_iff_ne, ne_eq]
          exact fun hh => h (hh ▸ List.mem_cons_self c r)
        simp [List.isPrefixOf, hne]
    rw [if_neg (by simp [hpre])]
    cases l with
    | nil => rfl
    | cons c r =>
      have hr : p0 ∉ r := fun hh => h (List.mem_cons_of_mem c hh)
      show c :: removeAllFuel (p0 :: pt) n r = c :: r
      rw [ih hr]

-- ---------------------------------------------------------------------------
-- C6: the glyph decoder is the identity on escape-free input
-- ---------------------------------------------------------------------------

/-- Is a full CID escape (`(cid:` + digits + `)`) present anywhere in `l`,
that is, does the escape matcher succeed at some position? -/
def hasEscapeB : List Char → Bool
  | [] => false
  | c :: r => (matchCid (c :: r)).isSome || hasEscapeB r

theorem decodeCidAux_of_no_escape (l : List Char) (h : hasEscapeB l = false) :
    decodeCidAux l = l := by
  induction l with
  | nil => rw [decodeCidAux.eq_def]
  | cons c r ih =>
    rw [hasEscapeB, Bool.or_eq_false_iff] at h
    have hm : matchCid (c :: r) = none := by
      rcases hm2 : matchCid (c :: r) with _ | p
      · rfl
      · rw [hm2] at h
        simp at h
    rw [decodeCidAux.eq_def]
    split
    · next hp => simp at hp
    · next c2 r2 heq =>
        rw [List.cons.injEq] at heq
        obtain ⟨h1, h2⟩ := heq
        subst h1
        subst h2
        split
        · next p hp =>
            rw [hm] at hp
            exact absurd hp (by simp)
        · rw [ih h.2]

/-- C6: for every input string containing no glyph-index escape sequence,
`decode_cid` is the identity function. -/
theorem c6_decode_cid_identity (s : String) (h : hasEscapeB s.data = false) :
    decode_cid s = s := by
  unfold decode_cid
  by_cases h0 : s = ""
  · simp [h0]
  · simp only [h0, if_false]
    by_cases hc : isInfixOfL cidTag s.data
    · simp only [hc, if_true]
      rw [decodeCidAux_of_no_escape s.data h]
    · simp [hc]

/-- C6 witness: a concrete escape-free string (one that even contains a
partial `(cid:` marker) is returned unchanged. -/
theorem c6_witness : decode_cid "hello (cid:x) 123" = "hello (cid:x) 123" :=
  c6_decode_cid_identity "hello (cid:x) 123" (by decide)

-- ---------------------------------------------------------------------------
-- C5: clean_numeric on blank tokens, digit-free strings, clean numerals
-- ---------------------------------------------------------------------------

theorem keepNumChar_not_ws {c : Char} (h : keepNumChar c = true) :
    isWs c = false := by
  by_cases h1 : c = ' '
  · subst h1; exact absurd h (by decide)
  by_cases h2 : c = '\t'
  · subst h2; exact absurd h (by decide)
  by_cases h3 : c = '\n'
  · subst h3; exact absurd h (by decide)
  by_cases h4 : c = '\r'
  · subst h4; exact absurd h (by decide)
  by_cases h5 : c = '\x0b'
  · subst h5; exact absurd h (by decide)
  by_cases h6 : c = '\x0c'
  · subst h6; exact absurd h (by decide)
  simp [isWs, h1, h2, h3, h4, h5, h6]

theorem takeWhile_eq_nil {α : Type} {p : α → Bool} {l : List α}
    (h : ∀ c ∈ l, p c = false) : l.takeWhile p = [] := by
  cases l with
  | nil => rfl
  | cons a r => simp [List.takeWhile_cons, h a (by simp)]

theorem parseBody_none_of_no_digit {l : List Char}
    (h : ∀ c ∈ l, c.isDigit = false) : parseBody l = none := by
  have hdrop : l.dropWhile (fun x => x.isDigit) = l := dropWhile_eq_self h
  have htake : l.takeWhile (fun x => x.isDigit) = [] := takeWhile_eq_nil h
  rw [parseBody.eq_def]
  rw [hdrop]
  cases l with
  | nil => simp [htake]
  | cons c r =>
    by_cases hdot : c = '.'
    · subst hdot
      have hr : ∀ x ∈ r, x.isDigit = false :=
        fun x hx => h x (List.mem_cons_of_mem _ hx)
      simp [takeWhile_eq_nil hr, htake]
    · split
      · next heq => simp at heq
      · next r2 heq =>
          rw [List.cons.injEq] at heq
          exact absurd heq.1 hdot
      · rfl

theorem parsePyFloatL_none_of_no_digit {l : List Char}
    (h : ∀ c ∈ l, c.isDigit = false) : parsePyFloatL l = none := by
  rw [parsePyFloatL.eq_def]
  split
  · next r =>
      have hr : ∀ x ∈ r, x.isDigit = false :=
        fun x hx => h x (List.mem_cons_of_mem _ hx)
      rw [parseBody_none_of_no_digit hr]
      rfl
  · exact parseBody_none_of_no_digit h

theorem mem_cleanedOf {s : String} {c : Char} (h : c ∈ (cleanedOf s).data) :
    c ∈ s.data ∧ keepNumChar c = true := by
  unfold cleanedOf removeAllS removeAllL at h
  have h1 := List.mem_filter.mp h
  refine ⟨?_, h1.2⟩
  exact mem_stripL (mem_removeAllFuel (mem_removeAllFuel (mem_removeAllFuel h1.1)))

/-- C5: `clean_numeric` returns exactly 0 for every recognized blank token
(dash, em-dash, `N/A`, the Chinese not-applicable label, the empty string)
and for every input containing no digit; on an already-clean numeral string
(characters among digits, `.`, `-`, parsing as a Python float) it returns
that numeral's value.  It is a total function, so it never raises. -/
theorem c5_clean_numeric :
    (∀ s ∈ blankTokens, clean_numeric s = 0)
    ∧ (∀ s : String, (∀ c ∈ s.data, c.isDigit = false) → clean_numeric s = 0)
    ∧ (∀ (s : String) (q : ℚ), (∀ c ∈ s.data, keepNumChar c = true) →
        parsePyFloat s = some q → clean_numeric s = q) := by
  refine ⟨?_, ?_, ?_⟩
  · intro s hs
    simp only [blankTokens, List.mem_cons, List.not_mem_nil, or_false] at hs
    rcases hs with rfl | rfl | rfl | rfl | rfl
    · with_unfolding_all rfl
    · with_unfolding_all rfl
    · with_unfolding_all rfl
    · with_unfolding_all rfl
    · with_unfolding_all rfl
  · intro s h
    unfold clean_numeric
    by_cases h0 : s = ""
    · simp [h0]
    rw [if_neg h0]
    by_cases hb : pyStrip s ∈ blankTokens
    · rw [if_pos hb]
    rw [if_neg hb]
    by_cases hc : cleanedOf s = "" ∨ cleanedOf s = "-"
    · rw [if_pos hc]
    rw [if_neg hc]
    have hcl : ∀ c ∈ (cleanedOf s).data, c.isDigit = false :=
      fun c hmem => h c (mem_cleanedOf hmem).1
    rw [show parsePyFloat (cleanedOf s) = parsePyFloatL (cleanedOf s).data from rfl]
    rw [parsePyFloatL_none_of_no_digit hcl]
  · intro s q hkeep hparse
    have hne : s ≠ "" := by
      intro h0
      rw [h0] at hparse
      rw [show parsePyFloat "" = none from rfl] at hparse
      exact Option.noConfusion hparse
    have hsws : ∀ c ∈ s.data, isWs c = false :=
      fun c hc => keepNumChar_not_ws (hkeep c hc)
    have hstrip : pyStrip s = s := by
      unfold pyStrip
      rw [stripL_eq_self hsws]
    have hnd : s ≠ "-" := by
      intro h0
      rw [h0] at hparse
      rw [show parsePyFloat "-" = none from rfl] at hparse
      exact Option.noConfusion hparse
    have hnb : pyStrip s ∉ blankTokens := by
      rw [hstrip]
      intro hmem
      simp only [blankTokens, List.mem_cons, List.not_mem_nil, or_false] at hmem
      rcases hmem with rfl | rfl | rfl | rfl | rfl
      · exact hnd rfl
      · exact absurd (hkeep '—' (by decide)) (by decide)
      · exact absurd (hkeep 'N' (by decide)) (by decide)
      · exact absurd (hkeep '不' (by decide)) (by decide)
      · exact hne rfl
    have hcomma : ',' ∉ s.data :=
      fun hc => absurd (hkeep ',' hc) (by decide)
    have hdollar : '$' ∉ s.data :=
      fun hc => absurd (hkeep '$' hc) (by decide)
    have hH : 'H' ∉ s.data :=
      fun hc => absurd (hkeep 'H' hc) (by decide)
    have h1 : removeAllS s "," = s := by
      unfold removeAllS removeAllL
      rw [removeAllFuel_eq_self (show (",".data.head? = some ',') from rfl) hcomma]
    have h2 : removeAllS s "$" = s := by
      unfold removeAllS removeAllL
      rw [removeAllFuel_eq_self (show ("$".data.head? = some '$') from rfl) hdollar]
    have h3 : removeAllS s "HK$" = s := by
      unfold removeAllS removeAllL
      rw [removeAllFuel_eq_self (show ("HK$".data.head? = some 'H') from rfl) hH]
    have hclean : cleanedOf s = s := by
      unfold cleanedOf
      rw [hstrip, h1, h2, h3, List.filter_eq_self.mpr hkeep]
    unfold clean_numeric
    rw [if_neg hne, if_neg hnb, hclean]
    rw [if_neg (by push_neg; exact ⟨hne, hnd⟩)]
    rw [hparse]

/-- C5 witness: a blank token, a digit-free string, and a clean numeral. -/
theorem c5_witness :
    clean_numeric "N/A" = 0 ∧ clean_numeric "x.y-z" = 0
    ∧ clean_numeric "123.5" = mkRat 247 2 :=
  ⟨c5_clean_numeric.1 "N/A" (by decide),
   c5_clean_numeric.2.1 "x.y-z" (by decide),
   c5_clean_numeric.2.2 "123.5" (mkRat 247 2) (by decide)
     (by with_unfolding_all rfl)⟩

-- ---------------------------------------------------------------------------
-- C7: header-row detection range
-- ---------------------------------------------------------------------------

theorem findDataRowIdx_lt_length : ∀ {t : Table} {i : Nat},
    findDataRowIdx t = some i → i < t.length := by
  intro t
  induction t with
  | nil => intro i h; exact Option.noConfusion h
  | cons row rest ih =>
    intro i h
    rw [show findDataRowIdx (row :: rest) =
        (if isDataRow row then some 0 else (findDataRowIdx rest).map (· + 1)) from rfl] at h
    split at h
    · cases h; simp
    · rcases Option.map_eq_some'.mp h with ⟨j, hj, hji⟩
      have := ih hj
      simp only [List.length_cons]
      omega

/-- C7: for every table with at least two rows, header-row detection returns
a count k with 1 ≤ k ≤ rows − 1, namely the index of the first data row
floored at 1, or min(3, rows − 1) when no data row exists. -/
theorem c7_detect_header_rows (table : Table) (h2 : 2 ≤ table.length) :
    1 ≤ _detect_header_rows table
    ∧ _detect_header_rows table ≤ (table.length : Int) - 1
    ∧ _detect_header_rows table =
        (match findDataRowIdx table with
         | some i => ((max i 1 : Nat) : Int)
         | none => min 3 ((table.length : Int) - 1)) := by
  refine ⟨?_, ?_, rfl⟩
  · unfold _detect_header_rows
    split
    · next i hi =>
        have h1 : 1 ≤ max i 1 := le_max_right _ _
        exact_mod_cast h1
    · omega
  · unfold _detect_header_rows
    split
    · next i hi =>
        have hlt := findDataRowIdx_lt_length hi
        have hm : (max i 1 : Nat) ≤ table.length - 1 :=
          Nat.max_le.mpr ⟨by omega, by omega⟩
        omega
    · omega

/-- C7 witness: a concrete two-row table. -/
theorem c7_witness :
    1 ≤ _detect_header_rows [[some "Year"], [some "1"]]
    ∧ _detect_header_rows [[some "Year"], [some "1"]] ≤
        (([[some "Year"], [some "1"]] : Table).length : Int) - 1
    ∧ _detect_header_rows [[some "Year"], [some "1"]] =
        (match findDataRowIdx [[some "Year"], [some "1"]] with
         | some i => ((max i 1 : Nat) : Int)
         | none => min 3 ((([[some "Year"], [some "1"]] : Table).length : Int) - 1)) :=
  c7_detect_header_rows [[some "Year"], [some "1"]] (by decide)

-- ---------------------------------------------------------------------------
-- C8: row expansion counts
-- ---------------------------------------------------------------------------

theorem le_foldr_max {l : List Nat} {a : Nat} (h : a ∈ l) :
    a ≤ l.foldr max 0 := by
  induction l with
  | nil => simp at h
  | cons b r ih =>
    cases h with
    | head => exact le_max_left _ _
    | tail _ h2 => exact le_trans (ih h2) (le_max_right _ _)

theorem foldr_max_mem {l : List Nat} (h : l ≠ []) : l.foldr max 0 ∈ l := by
  induction l with
  | nil => exact absurd rfl h
  | cons b r ih =>
    cases r with
    | nil => simp
    | cons c rr =>
      rcases le_total (List.foldr max 0 (c :: rr)) b with hle | hle
      · have hb : List.foldr max 0 (b :: c :: rr) = b := max_eq_left hle
        rw [hb]
        exact List.mem_cons_self _ _
      · have hb : List.foldr max 0 (b :: c :: rr) = List.foldr max 0 (c :: rr) :=
          max_eq_right hle
        rw [hb]
        exact List.mem_cons_of_mem _ (ih (by simp))

theorem expandRow_length (row : Row) :
    (expandRow row).length =
      ((row.map (fun c => splitNLL (cellText c).data)).map List.length).foldr max 0 := by
  unfold expandRow
  simp

/-- C8: `_expand_rows` with a non-negative header count drops exactly that
many leading rows and expands each remaining physical row; every row emits
exactly the maximum newline-split count many sub-rows (an upper bound over
its cells, attained on some cell when the row is non-empty, with the empty
row emitting none), and every emitted sub-row has exactly as many cells as
the original physical row. -/
theorem c8_expand_rows (table : Table) (h : Nat) :
    _expand_rows table (h : Int) = ((table.drop h).map expandRow).flatten
    ∧ (∀ row : Row, ∀ sub ∈ expandRow row, sub.length = row.length)
    ∧ (∀ row : Row, ∀ cell ∈ row,
        (splitNLL (cellText cell).data).length ≤ (expandRow row).length)
    ∧ (∀ row : Row, row ≠ [] →
        ∃ cell ∈ row, (splitNLL (cellText cell).data).length = (expandRow row).length)
    ∧ expandRow ([] : Row) = [] := by
  refine ⟨?_, ?_, ?_, ?_, rfl⟩
  · have hc : ¬ ((h : Int) < 0) := by omega
    unfold _expand_rows pySliceFrom
    simp [hc, Int.toNat_natCast]
  · intro row sub hsub
    unfold expandRow at hsub
    simp only [List.mem_map] at hsub
    obtain ⟨j, hj, rfl⟩ := hsub
    simp
  · intro row cell hcell
    rw [expandRow_length]
    exact le_foldr_max (List.mem_map_of_mem _ (List.mem_map_of_mem _ hcell))
  · intro row hne
    rw [expandRow_length]
    have hmem := foldr_max_mem
      (l := (row.map (fun c => splitNLL (cellText c).data)).map List.length)
      (by simp [hne])
    simp only [List.mem_map] at hmem
    obtain ⟨parts, ⟨cell, hcell, rfl⟩, hlen⟩ := hmem
    exact ⟨cell, hcell, hlen⟩

/-- C8 witness: a concrete table with one compound data row. -/
theorem c8_witness :
    (["1", "a"] : List String).length = ([some "1\x0a2", some "a"] : Row).length
    ∧ _expand_rows [[some "hd"], [some "1\x0a2", some "a"]] ((1 : Nat) : Int) =
        (([[some "1\x0a2", some "a"]] : Table).map expandRow).flatten := by
  have h := c8_expand_rows [[some "hd"], [some "1\x0a2", some "a"]] 1
  exact ⟨h.2.1 [some "1\x0a2", some "a"] ["1", "a"] (by decide), h.1⟩

-- ---------------------------------------------------------------------------
-- Column-mapping lemmas: the year column is always 0
-- ---------------------------------------------------------------------------

theorem nwMapStep_year (m : NWMap) (idx : Nat) (h : String) :
    (nwMapStep m idx h).year = if idx = 0 then some 0 else m.year := by
  by_cases h0 : idx = 0
  · subst h0
    simp [nwMapStep]
  · by_cases h1 : idx = 1
    · subst h1
      simp [nwMapStep]
    · simp only [nwMapStep, h0, h1, if_false]
      split_ifs <;> rfl

theorem foldl_nwMapStep_year (f : Nat → String) :
    ∀ (l : List Nat) (m : NWMap),
      (m.year = none ∨ m.year = some 0) →
      ((l.foldl (fun acc j => nwMapStep acc j (f j)) m).year = none ∨
       (l.foldl (fun acc j => nwMapStep acc j (f j)) m).year = some 0) := by
  intro l
  induction l with
  | nil => intro m hm; exact hm
  | cons i r ih =>
    intro m hm
    simp only [List.foldl_cons]
    apply ih
    rw [nwMapStep_year]
    by_cases h0 : i = 0
    · rw [if_pos h0]
      right
      rfl
    · rw [if_neg h0]
      exact hm

theorem detect_nw_year (t : Table) (hr : Int) :
    (_detect_nw_column_mapping t hr).year = none ∨
    (_detect_nw_column_mapping t hr).year = some 0 := by
  unfold _detect_nw_column_mapping
  exact foldl_nwMapStep_year _ _ _ (Or.inl rfl)

theorem nwFold_year (nw : List Table) :
    (nwFold nw).1.year = none ∨ (nwFold nw).1.year = some 0 := by
  suffices h : ∀ (l : List Table) (acc : NWMap × List (List String)),
      (acc.1.year = none ∨ acc.1.year = some 0) →
      ((l.foldl (fun acc t =>
          (if acc.1.isEmpty then _detect_nw_column_mapping t (_detect_header_rows t)
           else acc.1,
           acc.2 ++ _expand_rows t (-1))) acc).1.year = none ∨
       (l.foldl (fun acc t =>
          (if acc.1.isEmpty then _detect_nw_column_mapping t (_detect_header_rows t)
           else acc.1,
           acc.2 ++ _expand_rows t (-1))) acc).1.year = some 0) by
    exact h nw ({}, []) (Or.inl rfl)
  intro l
  induction l with
  | nil => intro acc h; exact h
  | cons t r ih =>
    intro acc h
    simp only [List.foldl_cons]
    apply ih
    by_cases he : acc.1.isEmpty
    · rw [if_pos he]
      exact detect_nw_year _ _
    · rw [if_neg he]
      exact h

theorem nwFold_rows (nw : List Table) :
    (nwFold nw).2 = nw.flatMap (fun t => _expand_rows t (-1)) := by
  suffices h : ∀ (l : List Table) (acc : NWMap × List (List String)),
      (l.foldl (fun acc t =>
          (if acc.1.isEmpty then _detect_nw_column_mapping t (_detect_header_rows t)
           else acc.1,
           acc.2 ++ _expand_rows t (-1))) acc).2
        = acc.2 ++ l.flatMap (fun t => _expand_rows t (-1)) by
    have h2 := h nw ({}, [])
    simpa using h2
  intro l
  induction l with
  | nil => intro acc; simp
  | cons t r ih =>
    intro acc
    simp only [List.foldl_cons, List.flatMap_cons]
    rw [ih]
    simp [List.append_assoc]

theorem nwCols_year_eq_zero {m : NWMap}
    (h : m.year = none ∨ m.year = some 0) : (nwCols m).year = 0 := by
  rcases h with h | h <;> simp [nwCols, h]

-- ---------------------------------------------------------------------------
-- Per-row correspondence for the yearly loop
-- ---------------------------------------------------------------------------

/-- The year produced by one expanded surrender row: present exactly when
the row has at least 6 cells and a purely numeric first cell. -/
def rowYear? (row : List String) : Option Nat :=
  if row.length < 6 then none
  else if pyIsDigit (pyStrip (row.getD 0 "")) then
    some (parseNatDigits (pyStrip (row.getD 0 "")).data)
  else none

theorem rowYearAt_zero (row : List String) : rowYearAt 0 row = rowYear? row := by
  unfold rowYearAt rowYear?
  by_cases h6 : row.length < 6
  · simp [h6]
  · simp only [h6, if_false]
    have h0 : 0 < row.length := by omega
    rw [if_pos h0]

theorem buildYearlyRecord_year (c : NWCols) (hy : c.year = 0) (ap : ℚ)
    (py ai : Nat) (db : Nat → Option ℚ) (row : List String) :
    (buildYearlyRecord c ap py ai db row).map YearlyRecord.year = rowYear? row := by
  unfold buildYearlyRecord
  rw [hy, rowYearAt_zero]
  rcases hr : rowYear? row with _ | y <;> rfl

theorem buildYearlyRecord_db {c : NWCols} {ap : ℚ} {py ai : Nat}
    {db : Nat → Option ℚ} {row : List String} {rec : YearlyRecord}
    (h : buildYearlyRecord c ap py ai db row = some rec) :
    rec.total_death_benefit =
      (if (db rec.year).getD 0 = 0
       then max rec.total_surrender_value rec.cumulative_premium
       else (db rec.year).getD 0) := by
  unfold buildYearlyRecord at h
  split at h
  · exact Option.noConfusion h
  · rw [Option.some.injEq] at h
    subst h
    rfl

theorem map_year_filterMap (c : NWCols) (hy : c.year = 0) (ap : ℚ) (py ai : Nat)
    (db : Nat → Option ℚ) :
    ∀ rows : List (List String),
      ((rows.filterMap (buildYearlyRecord c ap py ai db)).map YearlyRecord.year)
        = rows.filterMap rowYear? := by
  intro rows
  induction rows with
  | nil => rfl
  | cons r rest ih =>
    have hb := buildYearlyRecord_year c hy ap py ai db r
    rcases hbr : buildYearlyRecord c ap py ai db r with _ | rec <;> rw [hbr] at hb
    · rw [List.filterMap_cons_none hbr]
      simp only [Option.map_none'] at hb
      rw [List.filterMap_cons_none hb.symm]
      exact ih
    · simp only [Option.map_some'] at hb
      rw [List.filterMap_cons_some hbr, List.filterMap_cons_some hb.symm]
      simp only [List.map_cons]
      rw [ih]

-- ---------------------------------------------------------------------------
-- C1: ordering of yearly_data
-- ---------------------------------------------------------------------------

/-- C1 (amended): the yearly records appear in the order of the expanded
surrender rows; their year sequence equals the parsed years of the valid
rows (in row order), hence the output is ordered by ascending year exactly
when the valid rows' years are. -/
theorem c1_yearly_order (nw db_tables : List Table) (info : PolicyInfo) :
    ((_extract_yearly_data nw db_tables info).1.map YearlyRecord.year)
      = (nw.flatMap (fun t => _expand_rows t (-1))).filterMap rowYear?
    ∧ (List.Sorted (· ≤ ·)
        ((nw.flatMap (fun t => _expand_rows t (-1))).filterMap rowYear?) →
       List.Sorted (· ≤ ·)
        ((_extract_yearly_data nw db_tables info).1.map YearlyRecord.year)) := by
  have hy : (nwCols (nwFold nw).1).year = 0 := nwCols_year_eq_zero (nwFold_year nw)
  have h1 : (_extract_yearly_data nw db_tables info).1
      = (nwFold nw).2.filterMap
          (buildYearlyRecord (nwCols (nwFold nw).1) info.annual_premium
            info.payment_years info.age_at_issue (dbByYear (dbRowsOf db_tables))) := rfl
  have h2 : ((_extract_yearly_data nw db_tables info).1.map YearlyRecord.year)
      = (nw.flatMap (fun t => _expand_rows t (-1))).filterMap rowYear? := by
    rw [h1, map_year_filterMap _ hy _ _ _ _, nwFold_rows]
  exact ⟨h2, fun hs => h2 ▸ hs⟩

/-- A conforming single-data-row surrender table for the C1 witness. -/
def c1SortedTable : Table :=
  [[some "Y0", some "A1", some "B2", some "B3", some "B4", some "B5", some "B6"],
   [some "1", some "31", some "1000", some "5", some "0", some "0", some "50"]]

/-- C1 witness: on a single-row table the valid rows' years are [1], which
is sorted, so the amended ordering statement applies. -/
theorem c1_witness :
    List.Sorted (· ≤ ·)
      (((_extract_yearly_data [c1SortedTable] [] {}).1).map YearlyRecord.year) :=
  (c1_yearly_order [c1SortedTable] [] {}).2
    (by
      have h : (([c1SortedTable] : List Table).flatMap
          (fun t => _expand_rows t (-1))).filterMap rowYear? = [1] := by
        with_unfolding_all rfl
      rw [h]
      decide)

/-- The input for the C1 counterexample: an 8-column table that the primary
classifier accepts as a surrender-value table (tier-1 rule: 8 columns with
the component labels `(A)` and `(E)`) and whose data rows carry the years
2 and 1, in that order. -/
def c1Table : Table :=
  [[some "Year", some "Age", some "Prem", some "(A) Cash", some "B4",
    some "B5", some "(E) Total", some "X"],
   [some "2", some "32", some "2000", some "10", some "0", some "0",
    some "100", some "0"],
   [some "1", some "31", some "1000", some "5", some "0", some "0",
    some "50", some "0"]]

/-- C1 counterexample: the classification loop accepts `c1Table` as a
surrender-value table, and `_extract_yearly_data` preserves row order and
never sorts, so a table listing year 2 before year 1 produces yearly_data
whose year sequence [2, 1] is not ascending. -/
theorem c1_counterexample :
    (classifyPages [⟨"", []⟩, ⟨"", [c1Table]⟩]).nw = [c1Table]
    ∧ ¬ List.Sorted (· ≤ ·)
        (((_extract_yearly_data [c1Table] [] {}).1).map YearlyRecord.year) := by
  constructor
  · with_unfolding_all rfl
  · have h : (((_extract_yearly_data [c1Table] [] {}).1).map YearlyRecord.year)
        = [2, 1] := by
      with_unfolding_all rfl
    rw [h]
    decide

-- ---------------------------------------------------------------------------
-- C3: death-benefit fallback
-- ---------------------------------------------------------------------------

/-- C3: for every assembled yearly record whose policy year is absent from
the death-benefit lookup (or whose looked-up value is zero), the total death
benefit equals max(total surrender value, cumulative premium) of that
record, and is therefore positive whenever either of the two is. -/
theorem c3_death_benefit (nw db_tables : List Table) (info : PolicyInfo)
    (rec : YearlyRecord)
    (hmem : rec ∈ (_extract_yearly_data nw db_tables info).1)
    (hdb : dbByYear (dbRowsOf db_tables) rec.year = none ∨
           dbByYear (dbRowsOf db_tables) rec.year = some 0) :
    rec.total_death_benefit = max rec.total_surrender_value rec.cumulative_premium
    ∧ ((0 < rec.total_surrender_value ∨ 0 < rec.cumulative_premium) →
        0 < rec.total_death_benefit) := by
  have hmem2 : rec ∈ (nwFold nw).2.filterMap
      (buildYearlyRecord (nwCols (nwFold nw).1) info.annual_premium
        info.payment_years info.age_at_issue (dbByYear (dbRowsOf db_tables))) := hmem
  obtain ⟨row, hrow, hbuild⟩ := List.mem_filterMap.mp hmem2
  have hd := buildYearlyRecord_db hbuild
  have hdb0 : (dbByYear (dbRowsOf db_tables) rec.year).getD 0 = 0 := by
    rcases hdb with h | h <;> rw [h] <;> rfl
  rw [hdb0, if_pos rfl] at hd
  refine ⟨hd, ?_⟩
  intro hpos
  rw [hd]
  rcases hpos with h | h
  · exact lt_of_lt_of_le h (le_max_left _ _)
  · exact lt_of_lt_of_le h (le_max_right _ _)

/-- The input for the C3 witness: one surrender row for year 1 and no
death-benefit table at all. -/
def c3Table : Table :=
  [[some "Y0", some "A1", some "B2", some "B3", some "B4", some "B5", some "B6"],
   [some "1", some "31", some "1000", some "5", some "0", some "0", some "50"]]

/-- C3 witness: with no death-benefit table, the single assembled record
falls back to max(50, 1000) = 1000 for its death benefit. -/
theorem c3_witness :
    (⟨1, 31, 1000, 5, 0, 50, 50, 1000⟩ : YearlyRecord).total_death_benefit =
      max (⟨1, 31, 1000, 5, 0, 50, 50, 1000⟩ : YearlyRecord).total_surrender_value
        (⟨1, 31, 1000, 5, 0, 50, 50, 1000⟩ : YearlyRecord).cumulative_premium :=
  (c3_death_benefit [c3Table] [] {} ⟨1, 31, 1000, 5, 0, 50, 50, 1000⟩
    (by
      have h : (_extract_yearly_data [c3Table] [] {}).1
          = [⟨1, 31, 1000, 5, 0, 50, 50, 1000⟩] := by
        with_unfolding_all rfl
      rw [h]
      exact List.mem_cons_self _ _)
    (Or.inl rfl)).1

-- ---------------------------------------------------------------------------
-- C9: withdrawal records per year
-- ---------------------------------------------------------------------------

theorem wdMapStep_year (m : WDMap) (idx : Nat) (h : String) :
    (wdMapStep m idx h).year = if idx = 0 then some 0 else m.year := by
  by_cases h0 : idx = 0
  · subst h0
    simp [wdMapStep]
  · by_cases h1 : idx = 1
    · subst h1
      simp [wdMapStep]
    · simp only [wdMapStep, h0, h1, if_false]
      split_ifs <;> rfl

theorem foldl_wdMapStep_year (f : Nat → String) :
    ∀ (l : List Nat) (m : WDMap),
      (m.year = none ∨ m.year = some 0) →
      ((l.foldl (fun acc j => wdMapStep acc j (f j)) m).year = none ∨
       (l.foldl (fun acc j => wdMapStep acc j (f j)) m).year = some 0) := by
  intro l
  induction l with
  | nil => intro m hm; exact hm
  | cons i r ih =>
    intro m hm
    simp only [List.foldl_cons]
    apply ih
    rw [wdMapStep_year]
    by_cases h0 : i = 0
    · rw [if_pos h0]
      right
      rfl
    · rw [if_neg h0]
      exact hm

theorem detect_wd_year (t : Table) (hr : Int) :
    (_detect_wd_column_mapping t hr).year = none ∨
    (_detect_wd_column_mapping t hr).year = some 0 := by
  unfold _detect_wd_column_mapping
  exact foldl_wdMapStep_year _ _ _ (Or.inl rfl)

theorem wdFold_year (wd : List Table) :
    (wdFold wd).1.year = none ∨ (wdFold wd).1.year = some 0 := by
  suffices h : ∀ (l : List Table) (acc : WDMap × List (List String)),
      (acc.1.year = none ∨ acc.1.year = some 0) →
      ((l.foldl (fun acc t =>
          (if acc.1.isEmpty then _detect_wd_column_mapping t (_detect_header_rows t)
           else acc.1,
           acc.2 ++ _expand_rows t (-1))) acc).1.year = none ∨
       (l.foldl (fun acc t =>
          (if acc.1.isEmpty then _detect_wd_column_mapping t (_detect_header_rows t)
           else acc.1,
           acc.2 ++ _expand_rows t (-1))) acc).1.year = some 0) by
    exact h wd ({}, []) (Or.inl rfl)
  intro l
  induction l with
  | nil => intro acc h; exact h
  | cons t r ih =>
    intro acc h
    simp only [List.foldl_cons]
    apply ih
    by_cases he : acc.1.isEmpty
    · rw [if_pos he]
      exact detect_wd_year _ _
    · rw [if_neg he]
      exact h

theorem wdFold_rows (wd : List Table) :
    (wdFold wd).2 = wd.flatMap (fun t => _expand_rows t (-1)) := by
  suffices h : ∀ (l : List Table) (acc : WDMap × List (List String)),
      (l.foldl (fun acc t =>
          (if acc.1.isEmpty then _detect_wd_column_mapping t (_detect_header_rows t)
           else acc.1,
           acc.2 ++ _expand_rows t (-1))) acc).2
        = acc.2 ++ l.flatMap (fun t => _expand_rows t (-1)) by
    have h2 := h wd ({}, [])
    simpa using h2
  intro l
  induction l with
  | nil => intro acc; simp
  | cons t r ih =>
    intro acc
    simp only [List.foldl_cons, List.flatMap_cons]
    rw [ih]
    simp [List.append_assoc]

theorem wdCols_year_eq_zero {m : WDMap}
    (h : m.year = none ∨ m.year = some 0) : (wdCols m).year = 0 := by
  rcases h with h | h <;> simp [wdCols, h]

theorem buildWDRecord_year (c : WDCols) (hy : c.year = 0) (row : List String) :
    (buildWDRecord c row).map WithdrawalRecord.year = rowYear? row := by
  unfold buildWDRecord
  rw [hy, rowYearAt_zero]
  rcases hr : rowYear? row with _ | y <;> rfl

theorem map_wd_year_filterMap (c : WDCols) (hy : c.year = 0) :
    ∀ rows : List (List String),
      ((rows.filterMap (buildWDRecord c)).map WithdrawalRecord.year)
        = rows.filterMap rowYear? := by
  intro rows
  induction rows with
  | nil => rfl
  | cons r rest ih =>
    have hb := buildWDRecord_year c hy r
    rcases hbr : buildWDRecord c r with _ | rec <;> rw [hbr] at hb
    · rw [List.filterMap_cons_none hbr]
      simp only [Option.map_none'] at hb
      rw [List.filterMap_cons_none hb.symm]
      exact ih
    · simp only [Option.map_some'] at hb
      rw [List.filterMap_cons_some hbr, List.filterMap_cons_some hb.symm]
      simp only [List.map_cons]
      rw [ih]

/-- C9 (amended): the withdrawal records are one per valid expanded row, in
row order; their year sequence equals the parsed years of the valid rows,
so the records' years are pairwise distinct exactly when those are — the
code never de-duplicates by year. -/
theorem c9_withdrawal_years (wd : List Table) :
    ((_extract_withdrawal_data wd).1.map WithdrawalRecord.year)
      = (if wd.isEmpty then ([] : List Nat)
         else (wd.flatMap (fun t => _expand_rows t (-1))).filterMap rowYear?)
    ∧ (((wd.flatMap (fun t => _expand_rows t (-1))).filterMap rowYear?).Nodup →
        ((_extract_withdrawal_data wd).1.map WithdrawalRecord.year).Nodup) := by
  by_cases he : wd.isEmpty
  · constructor
    · rw [if_pos he]
      unfold _extract_withdrawal_data
      rw [if_pos he]
      rfl
    · intro hnd
      unfold _extract_withdrawal_data
      rw [if_pos he]
      simp
  · have hy : (wdCols (wdFold wd).1).year = 0 := wdCols_year_eq_zero (wdFold_year wd)
    have h1 : (_extract_withdrawal_data wd).1
        = (wdFold wd).2.filterMap (buildWDRecord (wdCols (wdFold wd).1)) := by
      unfold _extract_withdrawal_data
      rw [if_neg he]
    have h2 : ((_extract_withdrawal_data wd).1.map WithdrawalRecord.year)
        = (wd.flatMap (fun t => _expand_rows t (-1))).filterMap rowYear? := by
      rw [h1, map_wd_year_filterMap _ hy, wdFold_rows]
    constructor
    · rw [h2, if_neg he]
    · intro hs
      rw [h2]
      exact hs

/-- A well-formed withdrawal table: same layout as `c9Table`, but with the
distinct years 1 and 2. -/
def c9DistinctTable : Table :=
  [[some "Year", some "Age", some "X", some "(1) Withdrawal", some "Y",
    some "(2) Remaining", some "A", some "B", some "C", some "Total"],
   [some "1", some "31", some "0", some "100", some "0", some "50",
    some "10", some "5", some "0", some "65"],
   [some "2", some "32", some "0", some "90", some "0", some "40",
    some "8", some "4", some "0", some "52"]]

/-- C9 witness: with pairwise-distinct years in the valid rows, the records
carry pairwise-distinct years. -/
theorem c9_witness :
    ((_extract_withdrawal_data [c9DistinctTable]).1.map WithdrawalRecord.year).Nodup :=
  (c9_withdrawal_years [c9DistinctTable]).2
    (by
      have h : (([c9DistinctTable] : List Table).flatMap
          (fun t => _expand_rows t (-1))).filterMap rowYear? = [1, 2] := by
        with_unfolding_all rfl
      rw [h]
      decide)

/-- The input for the C9 counterexample: a 10-column table that the primary
classifier accepts as a withdrawal table (tier-1 rule: 10 columns with the
sequence labels `(1)` and `(2)`) and whose two data rows both carry
year 1. -/
def c9Table : Table :=
  [[some "Year", some "Age", some "X", some "(1) Withdrawal", some "Y",
    some "(2) Remaining", some "A", some "B", some "C", some "Total"],
   [some "1", some "31", some "0", some "100", some "0", some "50",
    some "10", some "5", some "0", some "65"],
   [some "1", some "31", some "0", some "90", some "0", some "40",
    some "8", some "4", some "0", some "52"]]

/-- C9 counterexample: the classification loop accepts `c9Table` as a
withdrawal table, and `_extract_withdrawal_data` emits one record per valid
row without de-duplicating, so two rows for year 1 yield two records sharing
year 1. -/
theorem c9_counterexample :
    (classifyPages [⟨"", []⟩, ⟨"", [c9Table]⟩]).wd = [c9Table]
    ∧ ¬ ((_extract_withdrawal_data [c9Table]).1.map WithdrawalRecord.year).Nodup := by
  constructor
  · with_unfolding_all rfl
  · have h : ((_extract_withdrawal_data [c9Table]).1.map WithdrawalRecord.year)
        = [1, 1] := by
      with_unfolding_all rfl
    rw [h]
    decide

-- ---------------------------------------------------------------------------
-- C4: premium and payment-duration override
-- ---------------------------------------------------------------------------

theorem find?_range'_eq_some {p : Nat → Bool} :
    ∀ {n s i : Nat}, ((List.range' s n).find? p = some i ↔
      (s ≤ i ∧ i < s + n ∧ p i = true ∧ ∀ j, s ≤ j → j < i → p j = false)) := by
  intro n
  induction n with
  | zero =>
    intro s i
    simp only [List.range', List.find?]
    constructor
    · intro h; exact Option.noConfusion h
    · rintro ⟨h1, h2, h3, h4⟩
      omega
  | succ m ih =>
    intro s i
    rw [show List.range' s (m + 1) = s :: List.range' (s + 1) m from rfl]
    by_cases hp : p s = true
    · rw [List.find?_cons_of_pos _ hp]
      constructor
      · intro h
        rw [Option.some.injEq] at h
        subst h
        exact ⟨le_refl s, by omega, hp, fun j h1 h2 => absurd h1 (by omega)⟩
      · rintro ⟨h1, h2, h3, h4⟩
        have hi : i = s := by
          by_contra hne
          have hlt : s < i := lt_of_le_of_ne h1 (Ne.symm hne)
          rw [h4 s (le_refl s) hlt] at hp
          exact Bool.noConfusion hp
        rw [hi]
    · have hp2 : p s = false := by
        cases hps : p s
        · rfl
        · exact absurd hps hp
      rw [List.find?_cons_of_neg _ hp]
      rw [ih]
      constructor
      · rintro ⟨h1, h2, h3, h4⟩
        refine ⟨by omega, by omega, h3, ?_⟩
        intro j hj1 hj2
        rcases Nat.eq_or_lt_of_le hj1 with heq | hlt
        · rw [← heq]
          exact hp2
        · exact h4 j (by omega) hj2
      · rintro ⟨h1, h2, h3, h4⟩
        have hne : s ≠ i := by
          intro heq
          rw [← heq] at h3
          exact absurd h3 hp
        exact ⟨by omega, by omega, h3, fun j hj1 hj2 => h4 j (by omega) hj2⟩

/-- The first index at or after 1 at which the cumulative premium equals the
previous record's: the claim's description of the detected payment
duration. -/
def isFirstStop (yearly : List YearlyRecord) (i : Nat) : Prop :=
  1 ≤ i ∧ i < yearly.length ∧
  (yearly.getD i default).cumulative_premium =
    (yearly.getD (i - 1) default).cumulative_premium ∧
  ∀ j, j < i → 1 ≤ j →
    (yearly.getD j default).cumulative_premium ≠
      (yearly.getD (j - 1) default).cumulative_premium

/-- The cumulative-premium series [1000, 2000, 2000, 2000] of the C4
scenario. -/
def c4Example : List YearlyRecord :=
  [⟨1, 31, 1000, 0, 0, 0, 0, 0⟩, ⟨2, 32, 2000, 0, 0, 0, 0, 0⟩,
   ⟨3, 33, 2000, 0, 0, 0, 0, 0⟩, ⟨4, 34, 2000, 0, 0, 0, 0, 0⟩]

/-- C4: whenever the yearly series is non-empty with a positive first
cumulative premium, the override sets annual_premium to that first value
and payment_years to the first index i ≥ 1 whose cumulative premium equals
its predecessor's; on the series [1000, 2000, 2000, 2000] this gives annual
premium 1000 and payment duration 2. -/
theorem c4_premium_override :
    (∀ (yearly : List YearlyRecord) (info : PolicyInfo) (first : YearlyRecord)
        (rest : List YearlyRecord), yearly = first :: rest →
      0 < first.cumulative_premium →
      ((autoDetectPremium yearly info).1.annual_premium = first.cumulative_premium
       ∧ ∀ i, isFirstStop yearly i →
           (autoDetectPremium yearly info).1.payment_years = i))
    ∧ ((autoDetectPremium c4Example {}).1.annual_premium = 1000
       ∧ (autoDetectPremium c4Example {}).1.payment_years = 2) := by
  constructor
  · rintro yearly info first rest rfl hpos
    constructor
    · simp only [autoDetectPremium]
      rw [if_pos hpos]
      rcases hf : findStopIdx (first :: rest) with _ | i
      · rfl
      · rfl
    · intro i hstop
      obtain ⟨h1, h2, h3, h4⟩ := hstop
      have hfind : findStopIdx (first :: rest) = some i := by
        unfold findStopIdx
        rw [find?_range'_eq_some]
        refine ⟨h1, ?_, beq_iff_eq.mpr h3, ?_⟩
        · simp only [List.length_cons] at h2 ⊢
          omega
        · intro j hj1 hj2
          exact beq_eq_false_iff_ne.mpr (h4 j hj2 hj1)
      simp only [autoDetectPremium]
      rw [if_pos hpos, hfind]
      rfl
  · constructor
    · with_unfolding_all rfl
    · with_unfolding_all rfl

/-- C4 witness: the override applied to the [1000, 2000, 2000, 2000]
series through the general statement. -/
theorem c4_witness :
    (autoDetectPremium c4Example {}).1.annual_premium = (1000 : ℚ)
    ∧ (autoDetectPremium c4Example {}).1.payment_years = 2 := by
  have h := c4_premium_override.1 c4Example {} ⟨1, 31, 1000, 0, 0, 0, 0, 0⟩
    [⟨2, 32, 2000, 0, 0, 0, 0, 0⟩, ⟨3, 33, 2000, 0, 0, 0, 0, 0⟩,
     ⟨4, 34, 2000, 0, 0, 0, 0, 0⟩] rfl (by decide)
  refine ⟨?_, h.2 2 ?_⟩
  · rw [h.1]
  · refine ⟨by omega, by decide, by decide, ?_⟩
    intro j hj1 hj2
    interval_cases j
    · decide

-- ---------------------------------------------------------------------------
-- C10: silent defaults in policy_info
-- ---------------------------------------------------------------------------

theorem piName_preserves (t : Table) (info : PolicyInfo) :
    (piName t info).insurer = info.insurer
    ∧ (piName t info).gender = info.gender := by
  unfold piName
  split <;> exact ⟨rfl, rfl⟩

theorem piAge_preserves (t : Table) (info : PolicyInfo) :
    (piAge t info).insurer = info.insurer
    ∧ (piAge t info).gender = info.gender := by
  unfold piAge
  split <;> exact ⟨rfl, rfl⟩

theorem piNameAge_preserves (tables : List Table) (info : PolicyInfo) :
    (piNameAge tables info).insurer = info.insurer
    ∧ (piNameAge tables info).gender = info.gender := by
  unfold piNameAge
  split
  · exact ⟨rfl, rfl⟩
  · next t rest =>
      obtain ⟨h1, h2⟩ := piAge_preserves t (piName t info)
      obtain ⟨h3, h4⟩ := piName_preserves t info
      exact ⟨h1.trans h3, h2.trans h4⟩

theorem piScanAmounts_preserves (inf : PolicyInfo) (cell : String) :
    (piScanAmounts inf cell).insurer = inf.insurer
    ∧ (piScanAmounts inf cell).gender = inf.gender := by
  unfold piScanAmounts
  generalize findAmountsL cell.data = l
  induction l generalizing inf with
  | nil => exact ⟨rfl, rfl⟩
  | cons a r ih =>
    simp only [List.foldl_cons]
    obtain ⟨h1, h2⟩ := ih (if 1000 ≤ clean_numeric a ∧ clean_numeric a ≤ 1000000
        ∧ inf.annual_premium = 0
      then { inf with annual_premium := clean_numeric a } else inf)
    constructor
    · rw [h1]
      split <;> rfl
    · rw [h2]
      split <;> rfl

theorem piScanYears_preserves (inf : PolicyInfo) (cell : String) :
    (piScanYears inf cell).insurer = inf.insurer
    ∧ (piScanYears inf cell).gender = inf.gender := by
  unfold piScanYears
  split_ifs <;> exact ⟨rfl, rfl⟩

theorem foldl_piScanCell_preserves :
    ∀ (l : List String) (i : PolicyInfo),
      (l.foldl piScanCell i).insurer = i.insurer
      ∧ (l.foldl piScanCell i).gender = i.gender := by
  intro l
  induction l with
  | nil => intro i; exact ⟨rfl, rfl⟩
  | cons a r ih =>
    intro i
    simp only [List.foldl_cons]
    obtain ⟨h1, h2⟩ := ih (piScanCell i a)
    obtain ⟨h3, h4⟩ := piScanYears_preserves (piScanAmounts i a) a
    obtain ⟨h5, h6⟩ := piScanAmounts_preserves i a
    exact ⟨h1.trans (h3.trans h5), h2.trans (h4.trans h6)⟩

theorem piApplySource_preserves (inf : PolicyInfo) (ts : String) :
    (piApplySource inf ts).insurer = inf.insurer
    ∧ (piApplySource inf ts).gender = inf.gender := by
  unfold piApplySource piCurrency piProduct
  split_ifs <;> exact ⟨rfl, rfl⟩

theorem piTotal_preserves (info : PolicyInfo) :
    (piTotal info).insurer = info.insurer
    ∧ (piTotal info).gender = info.gender := by
  unfold piTotal
  split_ifs <;> exact ⟨rfl, rfl⟩

theorem piSuffix_preserves (info : PolicyInfo) :
    (piSuffix info).insurer = info.insurer
    ∧ (piSuffix info).gender = info.gender := by
  unfold piSuffix
  split_ifs <;> exact ⟨rfl, rfl⟩

/-- C10: `policy_info` always carries silently defaulted scalars — the
insurer `"AIA"` and gender `"M"` are never modified on any input, and on a
document where nothing is detected (no info tables, empty page text) the
returned record keeps payment_years 5, currency `"USD"` with symbol `"$"`,
insurer `"AIA"`, gender `"M"`, and age_at_issue 0. -/
theorem c10_policy_defaults :
    (∀ (tables : List Table) (t1 t2 : String),
      (_extract_policy_info tables t1 t2).insurer = "AIA"
      ∧ (_extract_policy_info tables t1 t2).gender = "M")
    ∧ ((_extract_policy_info [] "" "").payment_years = 5
       ∧ (_extract_policy_info [] "" "").currency = "USD"
       ∧ (_extract_policy_info [] "" "").currency_symbol = "$"
       ∧ (_extract_policy_info [] "" "").insurer = "AIA"
       ∧ (_extract_policy_info [] "" "").gender = "M"
       ∧ (_extract_policy_info [] "" "").age_at_issue = 0) := by
  constructor
  · intro tables t1 t2
    unfold _extract_policy_info
    constructor
    · rw [(piSuffix_preserves _).1, (piTotal_preserves _).1,
        (piApplySource_preserves _ _).1, (piApplySource_preserves _ _).1,
        (foldl_piScanCell_preserves _ _).1, (piNameAge_preserves _ _).1]
    · rw [(piSuffix_preserves _).2, (piTotal_preserves _).2,
        (piApplySource_preserves _ _).2, (piApplySource_preserves _ _).2,
        (foldl_piScanCell_preserves _ _).2, (piNameAge_preserves _ _).2]
  · refine ⟨?_, ?_, ?_, ?_, ?_, ?_⟩
    · with_unfolding_all rfl
    · with_unfolding_all rfl
    · with_unfolding_all rfl
    · with_unfolding_all rfl
    · with_unfolding_all rfl
    · with_unfolding_all rfl

-- ---------------------------------------------------------------------------
-- C2: empty document
-- ---------------------------------------------------------------------------

theorem foldl_pages_empty :
    ∀ (l : List (Nat × Page)) (st : ClassifyState),
      (∀ x ∈ l, x.2.tables = []) →
      l.foldl (fun st pi => pi.2.tables.foldl (classifyStep pi.1) st) st = st := by
  intro l
  induction l with
  | nil => intro st h; rfl
  | cons x r ih =>
    intro st h
    simp only [List.foldl_cons]
    rw [h x (List.mem_cons_self _ _)]
    exact ih st (fun y hy => h y (List.mem_cons_of_mem _ hy))

theorem classifyPages_empty (pages : List Page)
    (h : ∀ p ∈ pages, p.tables = []) : classifyPages pages = {} := by
  unfold classifyPages
  apply foldl_pages_empty
  intro x hx
  rw [List.enum_eq_zip_range] at hx
  exact h x.2 (List.of_mem_zip hx).2

/-- C2: a document with at least one page from which no tables are
extractable yields an empty yearly_data list and a non-empty warnings list
(the extraction is a total function, so the call cannot raise). -/
theorem c2_empty_document (pages : List Page) (fitz : String)
    (hne : pages ≠ []) (hempty : ∀ p ∈ pages, p.tables = []) :
    (_do_extract pages fitz).yearly_data = []
    ∧ (_do_extract pages fitz).warnings ≠ [] := by
  have hcp : classifyPages pages = {} := classifyPages_empty pages hempty
  have hfb : applyFallback {} = {} := by
    unfold applyFallback
    rw [if_neg]
    simp
  unfold _do_extract
  rw [hcp, hfb]
  constructor
  · rfl
  · exact List.cons_ne_nil _ _

/-- C2 witness: a one-page document with no tables. -/
theorem c2_witness :
    (_do_extract [⟨"", []⟩] "").yearly_data = []
    ∧ (_do_extract [⟨"", []⟩] "").warnings ≠ [] :=
  c2_empty_document [⟨"", []⟩] "" (by simp)
    (by
      intro p hp
      rw [List.mem_singleton] at hp
      subst hp
      rfl)

end PIA
